import Mathlib

/-!
# Verification of the Rune schema-to-C code generator

A shallow embedding, in Lean 4, of the generation core of the Rune C
compiler (`src/architecture.rs`, `src/c_standard.rs`, `src/c_utilities.rs`,
`src/header.rs`, `src/source.rs`), together with theorems settling the
specification's claims about the struct layout engine, the bitfield and
enum generators, and the message-descriptor generator.

Machine integers (`u64`/`usize`) are modelled as `Nat`; all the embedded
arithmetic stays far below `2^64` overflow, except where noted in the
individual definitions.  Fallible Rust functions returning
`Result<T, CompilerError>` are modelled as `Except CompilerError T`.
-/

namespace RuneC

-- ## Error type (`src/compile_error.rs`)

inductive CompilerError where
  | InvalidArgument
  | InvalidInputPath
  | ConfigurationError
  | SourceAndCStandardMismatch
  | ParsingError
  | LogicError
  | MalformedSource
  | UnsupportedFeature
  | FileSystemError
deriving DecidableEq, Repr

-- ## Architecture (`src/architecture.rs`)

inductive Architecture where
  | _32Bit
  | _64Bit
deriving DecidableEq, Repr

/-- `Architecture::byte_size` -/
def Architecture.byte_size : Architecture → Nat
  | ._32Bit => 4
  | ._64Bit => 8

-- ## C standard (`src/c_standard.rs`)

inductive CStandard where
  | C89
  | C95
  | C99
  | C11
  | C17
  | C23
deriving DecidableEq, Repr

/-- The discriminant values of the Rust `CStandard` enum; `PartialOrd` on the
Rust enum compares these. -/
def CStandard.ord : CStandard → Nat
  | .C89 => 0
  | .C95 => 1
  | .C99 => 2
  | .C11 => 3
  | .C17 => 4
  | .C23 => 5

/-- `CStandard::allows_boolean` (`*self >= CStandard::C99`) -/
def CStandard.allows_boolean (s : CStandard) : Bool :=
  CStandard.ord .C99 ≤ s.ord

/-- `CStandard::allows_designated_initializers` (`*self >= CStandard::C99`) -/
def CStandard.allows_designated_initializers (s : CStandard) : Bool :=
  CStandard.ord .C99 ≤ s.ord

/-- `CStandard::allows_integer_types` (`*self >= CStandard::C99`) -/
def CStandard.allows_integer_types (s : CStandard) : Bool :=
  CStandard.ord .C99 ≤ s.ord

/-- `CStandard::allows_enum_backing_type` (`*self >= CStandard::C23`) -/
def CStandard.allows_enum_backing_type (s : CStandard) : Bool :=
  CStandard.ord .C23 ≤ s.ord

-- ## Numeric literals (the `rune_parser` scanner's `NumericLiteral`)

/-- The scanner's `NumericLiteral`.  The integer variants carry a 64-bit
machine value (modelled as a `Nat`); the float variant is modelled by the
IEEE-754 bit pattern that `f64::to_bits` returns, which is the only view of
the float that the generation core's classification uses. -/
inductive NumericLiteral where
  | Boolean (value : Bool)
  | PositiveInteger (value : Nat)
  | NegativeInteger (value : Nat)
  | Float (bits : Nat)
deriving DecidableEq, Repr

/-- Binary bit length with explicit fuel (so that it evaluates inside the
kernel); for `v < 2^fuel` this is the position of the highest set bit plus
one, 0 for `v = 0`. -/
def bitLen : Nat → Nat → Nat
  | _, 0 => 0
  | 0, _ => 0
  | fuel + 1, v => bitLen fuel (v / 2) + 1

/-- `u64::leading_zeros` for a value below `2^64`. -/
def leadingZeros64 (v : Nat) : Nat :=
  64 - bitLen 64 v

/-- `CNumericValue::requires_size` (`src/c_utilities.rs`): minimum byte width
classification by leading-zero-byte count. -/
def NumericLiteral.requires_size : NumericLiteral → Nat
  | .Boolean _ => 1
  | .PositiveInteger v => requiresSizeOfLz (leadingZeros64 v / 8)
  | .NegativeInteger v => requiresSizeOfLz (leadingZeros64 v / 8)
  | .Float bits => requiresSizeOfLz (leadingZeros64 bits / 8)
where
  /-- the `match leading_zeroes` arm table: `0..4 => 8, 4..6 => 4, 6..7 => 2, 7.. => 1` -/
  requiresSizeOfLz (lz : Nat) : Nat :=
    if lz < 4 then 8 else if lz < 6 then 4 else if lz < 7 then 2 else 1

-- ## Primitives (the `rune_parser` `Primitive` and `CPrimitive` impl)

inductive Primitive where
  | Bool
  | Char
  | I8
  | U8
  | I16
  | U16
  | F32
  | I32
  | U32
  | F64
  | I64
  | U64
  | I128
  | U128
deriving DecidableEq, Repr

/-- `CPrimitive::c_size` (`src/c_utilities.rs`) -/
def Primitive.c_size : Primitive → Nat
  | .Bool | .Char | .I8 | .U8 => 1
  | .I16 | .U16 => 2
  | .F32 | .I32 | .U32 => 4
  | .F64 | .I64 | .U64 => 8
  | .I128 | .U128 => 16

/-- `CPrimitive::to_c_type` (`src/c_utilities.rs`) -/
def Primitive.to_c_type (p : Primitive) (c_standard : CStandard) : Except CompilerError String :=
  match p with
  | .Bool => .ok (if c_standard.allows_boolean then "bool" else "char")
  | .Char => .ok "char"
  | .I8 => .ok (if c_standard.allows_integer_types then "int8_t" else "signed char")
  | .U8 => .ok (if c_standard.allows_integer_types then "uint8_t" else "unsigned char")
  | .I16 => .ok (if c_standard.allows_integer_types then "int16_t" else "signed short")
  | .U16 => .ok (if c_standard.allows_integer_types then "uint16_t" else "unsigned short")
  | .F32 => .ok "float"
  | .I32 => .ok (if c_standard.allows_integer_types then "int32_t" else "signed long")
  | .U32 => .ok (if c_standard.allows_integer_types then "uint32_t" else "unsigned long")
  | .F64 => .ok "double"
  | .I64 =>
    if c_standard.allows_integer_types then .ok "int64_t"
    else .error CompilerError.SourceAndCStandardMismatch
  | .U64 =>
    if c_standard.allows_integer_types then .ok "uint64_t"
    else .error CompilerError.SourceAndCStandardMismatch
  | .I128 | .U128 =>
    .ok (if c_standard.allows_integer_types then "uint8_t[16]" else "unsigned char[16]")

-- ## String helpers (`src/c_utilities.rs`)

/-- `pascal_to_snake_case`: convert `NamedVariable` to `named_variable`. -/
def pascal_to_snake_case (pascal : String) : String :=
  go 0 pascal.toList ""
where
  go (i : Nat) : List Char → String → String
    | [], acc => acc
    | c :: rest, acc =>
      let acc := if i ≠ 0 ∧ c.isUpper then acc.push '_' else acc
      go (i + 1) rest (acc.push c.toLower)

-- ## Schema data model (the `rune_parser` `types` module, as used by the core)

/-- `types::ArrayType` -/
inductive ArrayType where
  | Primitive (p : Primitive)
  | UserDefined (name : String)
deriving DecidableEq, Repr

/-- `types::DefineValue` -/
inductive DefineValue where
  | NoValue
  | NumericLiteral (value : NumericLiteral)
deriving DecidableEq, Repr

/-- `types::DefineDefinition` (the fields the generation core reads) -/
structure DefineDefinition where
  name : String
  value : DefineValue
deriving DecidableEq, Repr

/-- `types::ArraySize`.  The second component of the Rust `Integer` variant
(literal-format metadata) is not read by the generation core and is omitted. -/
inductive ArraySize where
  | Integer (value : Nat)
  | UserDefinition (definition : DefineDefinition)
deriving DecidableEq, Repr

/-- `types::FieldIndex`: a 5-bit numeric slot or the distinguished verifier slot. -/
inductive FieldIndex where
  | Numeric (value : Nat)
  | Verifier
deriving DecidableEq, Repr

/-- `types::FieldType` -/
inductive FieldType where
  | Primitive (p : Primitive)
  | UserDefined (name : String)
  | Array (element : ArrayType) (size : ArraySize)
  | Empty
deriving DecidableEq, Repr

/-- `types::BitSize` -/
inductive BitSize where
  | Signed (size : Nat)
  | Unsigned (size : Nat)
deriving DecidableEq, Repr

/-- The bit count carried by either `BitSize` variant (the
`match member.size { Signed(size) => size, Unsigned(size) => size }` idiom). -/
def BitSize.bits : BitSize → Nat
  | .Signed size => size
  | .Unsigned size => size

/-- `types::BitfieldMember` -/
structure BitfieldMember where
  identifier : String
  size : BitSize
  index : Nat
  comment : Option String
deriving DecidableEq, Repr

/-- `types::BitfieldDefinition` -/
structure BitfieldDefinition where
  name : String
  backing_type : Primitive
  members : List BitfieldMember
  comment : Option String
deriving DecidableEq, Repr

/-- `types::EnumMember` -/
structure EnumMember where
  identifier : String
  value : NumericLiteral
  comment : Option String
deriving DecidableEq, Repr

/-- `types::EnumDefinition` -/
structure EnumDefinition where
  name : String
  backing_type : Primitive
  members : List EnumMember
  comment : Option String
deriving DecidableEq, Repr

mutual

/-- `types::UserDefinitionLink` -/
inductive UserDefinitionLink where
  | NoLink : UserDefinitionLink
  | BitfieldLink : BitfieldDefinition → UserDefinitionLink
  | EnumLink : EnumDefinition → UserDefinitionLink
  | StructLink : StructDefinition → UserDefinitionLink

/-- `types::StructMember` -/
inductive StructMember where
  | mk : String → FieldType → FieldIndex → UserDefinitionLink → Option String → StructMember

/-- `types::StructDefinition` -/
inductive StructDefinition where
  | mk : String → List StructMember → Option String → StructDefinition

end

def StructMember.identifier : StructMember → String
  | .mk s _ _ _ _ => s

def StructMember.data_type : StructMember → FieldType
  | .mk _ t _ _ _ => t

def StructMember.index : StructMember → FieldIndex
  | .mk _ _ i _ _ => i

def StructMember.user_definition_link : StructMember → UserDefinitionLink
  | .mk _ _ _ l _ => l

def StructMember.comment : StructMember → Option String
  | .mk _ _ _ _ c => c

def StructDefinition.name : StructDefinition → String
  | .mk n _ _ => n

def StructDefinition.members : StructDefinition → List StructMember
  | .mk _ ms _ => ms

def StructDefinition.comment : StructDefinition → Option String
  | .mk _ _ c => c

-- ## Recursive size resolution (`CStructMember::c_size`, `src/c_utilities.rs`)

/-- The array-element-count resolution embedded in `CStructMember::c_size`:
an `ArraySize` is a direct integer, or a define whose value must be a
`NumericLiteral::PositiveInteger`; anything else is `MalformedSource`. -/
def ArraySize.resolve : ArraySize → Except CompilerError Nat
  | .Integer value => .ok value
  | .UserDefinition definition =>
    match definition.value with
    | .NumericLiteral (.PositiveInteger value) => .ok value
    | .NumericLiteral _ => .error CompilerError.MalformedSource
    | .NoValue => .error CompilerError.MalformedSource

mutual

/-- `CStructMember::c_size` (`src/c_utilities.rs`): recursive byte-size
resolution of a struct member. -/
def StructMember.c_size : StructMember → Except CompilerError Nat
  | .mk _ data_type _ link _ =>
    match data_type with
    | .Array array_type field_size =>
      match field_size.resolve with
      | .error e => .error e
      | .ok array_size =>
        match array_type with
        | .Primitive primitive => .ok (primitive.c_size * array_size)
        | .UserDefined _ =>
          match link with
          | .NoLink => .error CompilerError.MalformedSource
          | .BitfieldLink bitfield_definition =>
            .ok (bitfield_definition.backing_type.c_size * array_size)
          | .EnumLink enum_definition =>
            .ok (enum_definition.backing_type.c_size * array_size)
          | .StructLink (.mk _ struct_members _) =>
            match membersTotalSize struct_members with
            | .error e => .error e
            | .ok struct_size => .ok (struct_size * array_size)
    | .Empty => .ok 0
    | .Primitive primitive => .ok primitive.c_size
    | .UserDefined _ =>
      match link with
      | .NoLink => .error CompilerError.MalformedSource
      | .BitfieldLink bitfield_definition => .ok bitfield_definition.backing_type.c_size
      | .EnumLink enum_definition => .ok enum_definition.backing_type.c_size
      | .StructLink (.mk _ struct_members _) => membersTotalSize struct_members

/-- The summation loop that `CStructMember::c_size` runs over a linked
struct's members (`total_size += member.c_size()?`). -/
def membersTotalSize : List StructMember → Except CompilerError Nat
  | [] => .ok 0
  | member :: rest =>
    match member.c_size with
    | .error e => .error e
    | .ok size =>
      match membersTotalSize rest with
      | .error e => .error e
      | .ok total => .ok (size + total)

end

-- ## Compile configurations (`src/c_utilities.rs`)

/-- `CompileConfigurations` -/
structure CompileConfigurations where
  architecture : Architecture
  pack_data : Bool
  pack_metadata : Bool
  /-- the Rust field is named `section`, a Lean keyword -/
  section_name : Option String
  sort : Bool
  c_standard : CStandard
deriving DecidableEq, Repr

-- ## Struct layout engine (`src/c_utilities.rs`)

/-- The `SizedStructMember` helper struct. -/
structure SizedStructMember where
  member : StructMember
  size : Nat

instance : Inhabited StructMember :=
  ⟨.mk "" .Empty (.Numeric 0) .NoLink none⟩

instance : Inhabited SizedStructMember :=
  ⟨default, 0⟩

/-- The inner scan of `sort_non_aligned`: walk the small members left to
right carrying `(best_found_index, best_found_size)`; the Rust sentinel
`best_found_index == -1` is modelled as `none`.  A small member strictly
improving on the best-so-far remainder (`leftover - size < best_found_size`)
becomes the new best, so the first encountered wins ties. -/
def bestFitScanGo (leftover : Nat) : List SizedStructMember → Nat → Option Nat × Nat → Option Nat × Nat
  | [], _, state => state
  | small :: rest, list_index, state =>
    let state :=
      if small.size ≤ leftover ∧ leftover - small.size < state.2 then
        (some list_index, leftover - small.size)
      else state
    bestFitScanGo leftover rest (list_index + 1) state

/-- The scan started the way `sort_non_aligned` starts it:
`best_found_index = -1`, `best_found_size = sorting_value`. -/
def bestFitScan (leftover : Nat) (small_values : List SizedStructMember) (sorting_value : Nat) :
    Option Nat × Nat :=
  bestFitScanGo leftover small_values 0 (none, sorting_value)

/-- The large-member loop of `sort_non_aligned`: each large member is pushed,
then the best-fitting remaining small member (if any) is pushed right after
it and removed from the pool; the pool left after the last large member is
appended as-is. -/
def sortNonAlignedLoop (sorting_value : Nat) :
    List SizedStructMember → List SizedStructMember → List SizedStructMember
  | [], small_values => small_values
  | large :: rest, small_values =>
    let leftover_bytes := sorting_value - large.size % sorting_value
    match (bestFitScan leftover_bytes small_values sorting_value).1 with
    | none => large :: sortNonAlignedLoop sorting_value rest small_values
    | some best_found_index =>
      large :: small_values.getD best_found_index default ::
        sortNonAlignedLoop sorting_value rest (small_values.eraseIdx best_found_index)

/-- `sort_non_aligned` (`src/c_utilities.rs`): best-fit packing of the
unaligned class. -/
def sort_non_aligned (non_aligned : List SizedStructMember)
    (configurations : CompileConfigurations) : List SizedStructMember :=
  let sorting_value : Nat := configurations.architecture.byte_size
  let large_values := non_aligned.filter (fun member => decide (sorting_value < member.size))
  let small_values := non_aligned.filter (fun member => ! decide (sorting_value < member.size))
  sortNonAlignedLoop sorting_value large_values small_values

/-- The member-classification loop of `CStructDefinition::sort_members`:
discard size-0 members, then test `size % 8 == 0` (64-bit targets only),
`size % 4 == 0`, `size % 2 == 0` in that order, collecting the four classes
in original order. -/
def classifyLoop (architecture : Architecture) :
    List SizedStructMember →
      List SizedStructMember × List SizedStructMember × List SizedStructMember × List SizedStructMember
  | [] => ([], [], [], [])
  | x :: rest =>
    let (aligned_8, aligned_4, aligned_2, aligned_1) := classifyLoop architecture rest
    if x.size = 0 then
      (aligned_8, aligned_4, aligned_2, aligned_1)
    else if x.size % 8 = 0 ∧ architecture = Architecture._64Bit then
      (x :: aligned_8, aligned_4, aligned_2, aligned_1)
    else if x.size % 4 = 0 then
      (aligned_8, x :: aligned_4, aligned_2, aligned_1)
    else if x.size % 2 = 0 then
      (aligned_8, aligned_4, x :: aligned_2, aligned_1)
    else
      (aligned_8, aligned_4, aligned_2, x :: aligned_1)

/-- Resolve every member's size (`member.c_size()?` at the top of the
`sort_members` loop), failing on the first resolution error. -/
def sizedMembersOf : List StructMember → Except CompilerError (List SizedStructMember)
  | [] => .ok []
  | member :: rest =>
    match member.c_size with
    | .error e => .error e
    | .ok size =>
      match sizedMembersOf rest with
      | .error e => .error e
      | .ok others => .ok (⟨member, size⟩ :: others)

/-- `CStructDefinition::sort_members` (`src/c_utilities.rs`). -/
def StructDefinition.sort_members (self : StructDefinition)
    (configurations : CompileConfigurations) : Except CompilerError (List StructMember) :=
  match sizedMembersOf self.members with
  | .error e => .error e
  | .ok sized =>
    let classes := classifyLoop configurations.architecture sized
    .ok ((classes.1 ++ classes.2.1 ++ classes.2.2.1 ++
      sort_non_aligned classes.2.2.2 configurations).map SizedStructMember.member)

/-- The alignment-requirement table of `estimate_size`:
`1 => 1, 2 => 2, 3..=4 => 4, 5.. => 8` (size 0 is skipped by the caller). -/
def member_alignment_size (size : Nat) : Nat :=
  if size = 1 then 1 else if size = 2 then 2 else if size ≤ 4 then 4 else 8

/-- The padding-accumulation loop of `estimate_size`, over the resolved
member sizes in layout order: a size-0 member is skipped; otherwise, when
packing is disabled and the running total is not a multiple of the member's
alignment requirement, the shortfall is added as padding before the member's
own size. -/
def estimateWalk (pack_data : Bool) (total_size : Nat) : List Nat → Nat
  | [] => total_size
  | size :: rest =>
    if size = 0 then estimateWalk pack_data total_size rest
    else
      let alignment := member_alignment_size size
      let total_size :=
        if ¬pack_data ∧ total_size % alignment ≠ 0 then
          total_size + (alignment - total_size % alignment)
        else total_size
      estimateWalk pack_data (total_size + size) rest

/-- The per-member `member.c_size()?` resolution of the `estimate_size`
loop, gathered into a list (errors propagate in member order). -/
def memberSizes : List StructMember → Except CompilerError (List Nat)
  | [] => .ok []
  | member :: rest =>
    match member.c_size with
    | .error e => .error e
    | .ok size =>
      match memberSizes rest with
      | .error e => .error e
      | .ok sizes => .ok (size :: sizes)

/-- `CStructDefinition::estimate_size` (`src/c_utilities.rs`). -/
def StructDefinition.estimate_size (self : StructDefinition)
    (configurations : CompileConfigurations) : Except CompilerError Nat :=
  match (if configurations.sort then self.sort_members configurations else .ok self.members) with
  | .error e => .error e
  | .ok struct_list =>
    match memberSizes struct_list with
    | .error e => .error e
    | .ok sizes => .ok (estimateWalk configurations.pack_data 0 sizes)

-- ## Spec-side description of the unaligned best-fit pass
--
-- These definitions follow the specification's words (spec.md §4.2 step 3),
-- to be compared with the source-translated `sort_non_aligned` above.

/-- Modelled from the spec: "scan remaining small members for the one whose
size is ≤ leftover and whose remainder (`leftover - size`) is smallest
(first encountered wins ties)".  The scan carries the best
`(index, remainder)` found so far and only a strictly smaller remainder
replaces it. -/
def specScanGo (leftover : Nat) :
    List SizedStructMember → Nat → Option (Nat × Nat) → Option (Nat × Nat)
  | [], _, best => best
  | small :: rest, i, best =>
    let best :=
      if small.size ≤ leftover then
        match best with
        | none => some (i, leftover - small.size)
        | some (_, r) => if leftover - small.size < r then some (i, leftover - small.size) else best
      else best
    specScanGo leftover rest (i + 1) best

/-- Modelled from the spec: the chosen small-member index for a given gap. -/
def specPick (leftover : Nat) (small_values : List SizedStructMember) : Option (Nat × Nat) :=
  specScanGo leftover small_values 0 none

/-- Modelled from the spec: "For each large member, in original order,
compute the leftover bytes needed to reach the next word boundary
(`word_size - (size mod word_size)`), then [pick the best small member]; if
found, place it immediately after the large member and remove it from the
pool; if none fits, leave the gap unfilled.  After processing all large
members, append any unused small members in original order." -/
def specBestFitLoop (word_size : Nat) :
    List SizedStructMember → List SizedStructMember → List SizedStructMember
  | [], pool => pool
  | large :: rest, pool =>
    let leftover := word_size - large.size % word_size
    match specPick leftover pool with
    | none => large :: specBestFitLoop word_size rest pool
    | some (i, _) => large :: pool.getD i default :: specBestFitLoop word_size rest (pool.eraseIdx i)

/-- Modelled from the spec: "split into large members (size greater than the
architecture's word size) and small members (size ≤ word size)", then run
the best-fit pass. -/
def specBestFit (non_aligned : List SizedStructMember)
    (configurations : CompileConfigurations) : List SizedStructMember :=
  let word_size : Nat := configurations.architecture.byte_size
  specBestFitLoop word_size
    (non_aligned.filter (fun member => decide (word_size < member.size)))
    (non_aligned.filter (fun member => ! decide (word_size < member.size)))

-- ## Claim C1: the unaligned best-fit pass

theorem perm_getElem_cons_eraseIdx :
    ∀ (l : List SizedStructMember) (i : Nat) (h : i < l.length),
      l.Perm (l[i] :: l.eraseIdx i) := by
  intro l
  induction l with
  | nil => intro i h; simp at h
  | cons a t ih =>
    intro i h
    cases i with
    | zero => simp [List.eraseIdx]
    | succ i =>
      have h' : i < t.length := by simpa using h
      have step := (ih i h').cons a
      have swap := List.Perm.swap (t[i]) a (t.eraseIdx i)
      simpa [List.eraseIdx] using step.trans swap

/-- The state invariant relating the source scan (`bestFitScanGo`, sentinel
`best_found_size` initialised to the word size) to the spec scan
(`specScanGo`, no initial bound): both are `none`, or both hold the same
index with a remainder strictly below the word size. -/
def ScanInv (word : Nat) (code : Option Nat × Nat) (sp : Option (Nat × Nat)) : Prop :=
  (code = (none, word) ∧ sp = none) ∨
    (∃ j r, code = (some j, r) ∧ sp = some (j, r) ∧ r < word)

theorem scanGo_equiv (leftover word : Nat) (hlw : leftover ≤ word) :
    ∀ (smalls : List SizedStructMember) (i : Nat) (code : Option Nat × Nat)
      (sp : Option (Nat × Nat)),
      (∀ s ∈ smalls, 0 < s.size) → ScanInv word code sp →
      ScanInv word (bestFitScanGo leftover smalls i code) (specScanGo leftover smalls i sp) := by
  intro smalls
  induction smalls with
  | nil => intro i code sp _ hinv; simpa [bestFitScanGo, specScanGo] using hinv
  | cons x rest ih =>
    intro i code sp hpos hinv
    have hx : 0 < x.size := hpos x (List.mem_cons_self x rest)
    have hrest : ∀ s ∈ rest, 0 < s.size := fun s hs => hpos s (List.mem_cons_of_mem x hs)
    simp only [bestFitScanGo, specScanGo]
    apply ih (i + 1) _ _ hrest
    by_cases hfit : x.size ≤ leftover
    · have hrem : leftover - x.size < word :=
        lt_of_lt_of_le (Nat.sub_lt (lt_of_lt_of_le hx hfit) hx) hlw
      rcases hinv with ⟨hc, hs⟩ | ⟨j, r, hc, hs, hr⟩
      · subst hc; subst hs
        rw [if_pos ⟨hfit, hrem⟩, if_pos hfit]
        exact Or.inr ⟨i, leftover - x.size, rfl, rfl, hrem⟩
      · subst hc; subst hs
        by_cases himp : leftover - x.size < r
        · rw [if_pos ⟨hfit, himp⟩, if_pos hfit]
          show ScanInv word (some i, leftover - x.size)
            (if leftover - x.size < r then some (i, leftover - x.size) else some (j, r))
          rw [if_pos himp]
          exact Or.inr ⟨i, leftover - x.size, rfl, rfl, hrem⟩
        · rw [if_neg (fun hand => himp hand.2), if_pos hfit]
          show ScanInv word (some j, r)
            (if leftover - x.size < r then some (i, leftover - x.size) else some (j, r))
          rw [if_neg himp]
          exact Or.inr ⟨j, r, rfl, rfl, hr⟩
    · rcases hinv with ⟨hc, hs⟩ | ⟨j, r, hc, hs, hr⟩
      · subst hc; subst hs
        rw [if_neg (fun hand => hfit hand.1), if_neg hfit]
        exact Or.inl ⟨rfl, rfl⟩
      · subst hc; subst hs
        rw [if_neg (fun hand => hfit hand.1), if_neg hfit]
        exact Or.inr ⟨j, r, rfl, rfl, hr⟩

theorem scan_equiv (leftover word : Nat) (hlw : leftover ≤ word)
    (smalls : List SizedStructMember) (hpos : ∀ s ∈ smalls, 0 < s.size) :
    ScanInv word (bestFitScan leftover smalls word) (specPick leftover smalls) :=
  scanGo_equiv leftover word hlw smalls 0 (none, word) none hpos (Or.inl ⟨rfl, rfl⟩)

theorem scanGo_index_bound (leftover : Nat) :
    ∀ (smalls : List SizedStructMember) (i0 : Nat) (st : Option Nat × Nat),
      (∀ k, st.1 = some k → k < i0) →
      ∀ j, (bestFitScanGo leftover smalls i0 st).1 = some j → j < i0 + smalls.length := by
  intro smalls
  induction smalls with
  | nil =>
    intro i0 st hst j hj
    simp only [bestFitScanGo] at hj
    simpa using hst j hj
  | cons x rest ih =>
    intro i0 st hst j hj
    simp only [bestFitScanGo] at hj
    have hst' : ∀ k, (if x.size ≤ leftover ∧ leftover - x.size < st.2 then
        ((some i0, leftover - x.size) : Option Nat × Nat) else st).1 = some k → k < i0 + 1 := by
      intro k hk
      split at hk
      · simp at hk; omega
      · exact Nat.lt_succ_of_lt (hst k hk)
    have := ih (i0 + 1) _ hst' j hj
    simpa [Nat.add_assoc, Nat.add_comm 1 rest.length] using this

theorem scan_index_bound (leftover word : Nat) (smalls : List SizedStructMember) (j : Nat)
    (hj : (bestFitScan leftover smalls word).1 = some j) : j < smalls.length := by
  have := scanGo_index_bound leftover smalls 0 (none, word) (by intro k hk; simp at hk) j hj
  simpa using this

theorem sortNonAlignedLoop_eq_specBestFitLoop (word : Nat) :
    ∀ (larges smalls : List SizedStructMember), (∀ s ∈ smalls, 0 < s.size) →
      sortNonAlignedLoop word larges smalls = specBestFitLoop word larges smalls := by
  intro larges
  induction larges with
  | nil => intro smalls _; simp [sortNonAlignedLoop, specBestFitLoop]
  | cons large rest ih =>
    intro smalls hpos
    have hlw : word - large.size % word ≤ word := Nat.sub_le _ _
    have hinv := scan_equiv (word - large.size % word) word hlw smalls hpos
    rcases hinv with ⟨hc, hs⟩ | ⟨j, r, hc, hs, _⟩
    · have hc1 : (bestFitScan (word - large.size % word) smalls word).1 = none := by
        rw [hc]
      simp only [sortNonAlignedLoop, specBestFitLoop, hc1, hs, ih smalls hpos]
    · have hc1 : (bestFitScan (word - large.size % word) smalls word).1 = some j := by
        rw [hc]
      have hpos' : ∀ s ∈ smalls.eraseIdx j, 0 < s.size := fun s hs' =>
        hpos s (List.eraseIdx_subset smalls j hs')
      simp only [sortNonAlignedLoop, specBestFitLoop, hc1, hs, ih _ hpos']

theorem sortNonAlignedLoop_perm (word : Nat) :
    ∀ (larges smalls : List SizedStructMember),
      (sortNonAlignedLoop word larges smalls).Perm (larges ++ smalls) := by
  intro larges
  induction larges with
  | nil => intro smalls; simp [sortNonAlignedLoop]
  | cons large rest ih =>
    intro smalls
    simp only [sortNonAlignedLoop]
    cases hscan : (bestFitScan (word - large.size % word) smalls word).1 with
    | none => simpa using (ih smalls).cons large
    | some i =>
      have hi : i < smalls.length := scan_index_bound _ word smalls i hscan
      have hget : smalls.getD i default = smalls[i] := List.getD_eq_getElem smalls default hi
      have h1 := ih (smalls.eraseIdx i)
      have h2 := perm_getElem_cons_eraseIdx smalls i hi
      have step1 : (smalls[i] :: sortNonAlignedLoop word rest (smalls.eraseIdx i)).Perm
          (smalls[i] :: (rest ++ smalls.eraseIdx i)) := h1.cons _
      have step2 : (smalls[i] :: (rest ++ smalls.eraseIdx i)).Perm
          (rest ++ smalls[i] :: smalls.eraseIdx i) := List.perm_middle.symm
      have step3 : (rest ++ smalls[i] :: smalls.eraseIdx i).Perm (rest ++ smalls) :=
        List.Perm.append_left rest h2.symm
      have hfin := ((step1.trans step2).trans step3).cons large
      show (large :: smalls.getD i default ::
        sortNonAlignedLoop word rest (smalls.eraseIdx i)).Perm (large :: rest ++ smalls)
      rw [hget]
      exact hfin

/-- **C1** (confirmed).  In the unaligned best-fit pass, for every list of
unaligned members (every member of the unaligned class has positive size;
size-0 members are discarded before the pass) and every configuration, the
source algorithm `sort_non_aligned` coincides with the specification's
description `specBestFit`: large members (size > word size) are processed in
original order; for each, with `leftover = word_size - size % word_size`,
the first remaining small member with size ≤ leftover and smallest remainder
is placed immediately after it and removed from the pool; unfilled gaps are
allowed; leftover small members are appended in original order.  Moreover
the output is a permutation of the input, so no small member is ever placed
in two gaps, and each placed small member sits immediately after (never
before) its chosen large member. -/
theorem C1_sort_non_aligned_best_fit (non_aligned : List SizedStructMember)
    (configurations : CompileConfigurations)
    (hpos : ∀ m ∈ non_aligned, 0 < m.size) :
    sort_non_aligned non_aligned configurations = specBestFit non_aligned configurations ∧
      (sort_non_aligned non_aligned configurations).Perm non_aligned := by
  constructor
  · unfold sort_non_aligned specBestFit
    apply sortNonAlignedLoop_eq_specBestFitLoop
    intro s hs
    exact hpos s (List.mem_of_mem_filter hs)
  · unfold sort_non_aligned
    have h1 := sortNonAlignedLoop_perm configurations.architecture.byte_size
      (non_aligned.filter (fun member => decide (configurations.architecture.byte_size < member.size)))
      (non_aligned.filter (fun member => ! decide (configurations.architecture.byte_size < member.size)))
    have h2 := List.filter_append_perm
      (fun member => decide (configurations.architecture.byte_size < member.size)) non_aligned
    exact h1.trans h2

/-- Witness for C1 at a concrete input: sizes `[9, 3, 7, 1]` on a 64-bit
target (word size 8). -/
theorem C1_witness :
    sort_non_aligned
        [⟨.mk "a" .Empty (.Numeric 0) .NoLink none, 9⟩,
         ⟨.mk "b" .Empty (.Numeric 1) .NoLink none, 3⟩,
         ⟨.mk "c" .Empty (.Numeric 2) .NoLink none, 7⟩,
         ⟨.mk "d" .Empty (.Numeric 3) .NoLink none, 1⟩]
        ⟨._64Bit, false, false, none, true, .C99⟩ =
      specBestFit
        [⟨.mk "a" .Empty (.Numeric 0) .NoLink none, 9⟩,
         ⟨.mk "b" .Empty (.Numeric 1) .NoLink none, 3⟩,
         ⟨.mk "c" .Empty (.Numeric 2) .NoLink none, 7⟩,
         ⟨.mk "d" .Empty (.Numeric 3) .NoLink none, 1⟩]
        ⟨._64Bit, false, false, none, true, .C99⟩ ∧
      (sort_non_aligned
        [⟨.mk "a" .Empty (.Numeric 0) .NoLink none, 9⟩,
         ⟨.mk "b" .Empty (.Numeric 1) .NoLink none, 3⟩,
         ⟨.mk "c" .Empty (.Numeric 2) .NoLink none, 7⟩,
         ⟨.mk "d" .Empty (.Numeric 3) .NoLink none, 1⟩]
        ⟨._64Bit, false, false, none, true, .C99⟩).Perm
        [⟨.mk "a" .Empty (.Numeric 0) .NoLink none, 9⟩,
         ⟨.mk "b" .Empty (.Numeric 1) .NoLink none, 3⟩,
         ⟨.mk "c" .Empty (.Numeric 2) .NoLink none, 7⟩,
         ⟨.mk "d" .Empty (.Numeric 3) .NoLink none, 1⟩] :=
  C1_sort_non_aligned_best_fit _ _ (by
    intro m hm
    simp only [List.mem_cons, List.not_mem_nil, or_false] at hm
    rcases hm with rfl | rfl | rfl | rfl <;> decide)

-- ## Claim C3: the alignment classes of `sort_members`

/-- Spec-worded class predicate: 8-aligned (`size mod 8 == 0`, only eligible
on 64-bit targets), restricted to members of non-zero resolved size. -/
def isClass8 (architecture : Architecture) (x : SizedStructMember) : Bool :=
  decide (x.size ≠ 0 ∧ x.size % 8 = 0 ∧ architecture = Architecture._64Bit)

/-- Spec-worded class predicate: 4-aligned, tested after (and excluding) the
8-aligned class. -/
def isClass4 (architecture : Architecture) (x : SizedStructMember) : Bool :=
  decide (x.size ≠ 0 ∧ ¬(x.size % 8 = 0 ∧ architecture = Architecture._64Bit) ∧ x.size % 4 = 0)

/-- Spec-worded class predicate: 2-aligned, tested after (and excluding) the
8- and 4-aligned classes. -/
def isClass2 (architecture : Architecture) (x : SizedStructMember) : Bool :=
  decide (x.size ≠ 0 ∧ ¬(x.size % 8 = 0 ∧ architecture = Architecture._64Bit) ∧
    x.size % 4 ≠ 0 ∧ x.size % 2 = 0)

/-- Spec-worded class predicate: the unaligned class (everything of non-zero
size not caught by the previous three tests). -/
def isUnaligned (architecture : Architecture) (x : SizedStructMember) : Bool :=
  decide (x.size ≠ 0 ∧ ¬(x.size % 8 = 0 ∧ architecture = Architecture._64Bit) ∧
    x.size % 4 ≠ 0 ∧ x.size % 2 ≠ 0)

theorem classifyLoop_eq_filters (architecture : Architecture) :
    ∀ l : List SizedStructMember,
      classifyLoop architecture l =
        (l.filter (isClass8 architecture), l.filter (isClass4 architecture),
         l.filter (isClass2 architecture), l.filter (isUnaligned architecture)) := by
  intro l
  induction l with
  | nil => simp [classifyLoop]
  | cons x rest ih =>
    simp only [classifyLoop, ih, List.filter_cons]
    by_cases h0 : x.size = 0
    · simp [isClass8, isClass4, isClass2, isUnaligned, h0]
    · by_cases h8 : x.size % 8 = 0 ∧ architecture = Architecture._64Bit
      · simp [isClass8, isClass4, isClass2, isUnaligned, h0, h8]
      · by_cases h4 : x.size % 4 = 0
        · simp [isClass8, isClass4, isClass2, isUnaligned, h0, h8, h4]
        · by_cases h2 : x.size % 2 = 0
          · simp [isClass8, isClass4, isClass2, isUnaligned, h0, h8, h4, h2]
          · simp [isClass8, isClass4, isClass2, isUnaligned, h0, h8, h4, h2]

/-- **C3** (confirmed).  `sort_members` partitions the members of non-zero
resolved size into the exclusive classes tested in priority order (8-aligned
only on 64-bit targets, then 4-aligned, then 2-aligned, else unaligned) and
returns the concatenation 8 ++ 4 ++ 2 ++ best-fit-ordered unaligned, so no
member moves across alignment classes; on a 32-bit target the 8-aligned
class is empty. -/
theorem C3_sort_members_alignment_classes (sd : StructDefinition)
    (configurations : CompileConfigurations) (zs : List SizedStructMember)
    (h : sizedMembersOf sd.members = .ok zs) :
    sd.sort_members configurations =
      .ok ((zs.filter (isClass8 configurations.architecture) ++
            zs.filter (isClass4 configurations.architecture) ++
            zs.filter (isClass2 configurations.architecture) ++
            sort_non_aligned (zs.filter (isUnaligned configurations.architecture))
              configurations).map SizedStructMember.member) ∧
      (configurations.architecture = Architecture._32Bit →
        zs.filter (isClass8 configurations.architecture) = []) := by
  constructor
  · unfold StructDefinition.sort_members
    rw [h]
    simp [classifyLoop_eq_filters]
  · intro h32
    rw [List.filter_eq_nil_iff]
    intro a _
    simp [isClass8, h32]

/-- Witness for C3 at a concrete struct (member sizes 8, 4, 2, 1) on a
64-bit target. -/
theorem C3_witness :
    (StructDefinition.mk "S"
        [.mk "a" (.Primitive .U64) (.Numeric 0) .NoLink none,
         .mk "b" (.Primitive .U32) (.Numeric 1) .NoLink none,
         .mk "c" (.Primitive .U16) (.Numeric 2) .NoLink none,
         .mk "d" (.Primitive .U8) (.Numeric 3) .NoLink none] none).sort_members
        ⟨._64Bit, false, false, none, true, .C99⟩ =
      .ok (([⟨.mk "a" (.Primitive .U64) (.Numeric 0) .NoLink none, 8⟩,
             ⟨.mk "b" (.Primitive .U32) (.Numeric 1) .NoLink none, 4⟩,
             ⟨.mk "c" (.Primitive .U16) (.Numeric 2) .NoLink none, 2⟩,
             ⟨.mk "d" (.Primitive .U8) (.Numeric 3) .NoLink none, 1⟩].filter (isClass8 ._64Bit) ++
            [⟨.mk "a" (.Primitive .U64) (.Numeric 0) .NoLink none, 8⟩,
             ⟨.mk "b" (.Primitive .U32) (.Numeric 1) .NoLink none, 4⟩,
             ⟨.mk "c" (.Primitive .U16) (.Numeric 2) .NoLink none, 2⟩,
             ⟨.mk "d" (.Primitive .U8) (.Numeric 3) .NoLink none, 1⟩].filter (isClass4 ._64Bit) ++
            [⟨.mk "a" (.Primitive .U64) (.Numeric 0) .NoLink none, 8⟩,
             ⟨.mk "b" (.Primitive .U32) (.Numeric 1) .NoLink none, 4⟩,
             ⟨.mk "c" (.Primitive .U16) (.Numeric 2) .NoLink none, 2⟩,
             ⟨.mk "d" (.Primitive .U8) (.Numeric 3) .NoLink none, 1⟩].filter (isClass2 ._64Bit) ++
            sort_non_aligned
              ([⟨.mk "a" (.Primitive .U64) (.Numeric 0) .NoLink none, 8⟩,
                ⟨.mk "b" (.Primitive .U32) (.Numeric 1) .NoLink none, 4⟩,
                ⟨.mk "c" (.Primitive .U16) (.Numeric 2) .NoLink none, 2⟩,
                ⟨.mk "d" (.Primitive .U8) (.Numeric 3) .NoLink none, 1⟩].filter (isUnaligned ._64Bit))
              ⟨._64Bit, false, false, none, true, .C99⟩).map SizedStructMember.member) := by
  have h := C3_sort_members_alignment_classes
    (StructDefinition.mk "S"
      [.mk "a" (.Primitive .U64) (.Numeric 0) .NoLink none,
       .mk "b" (.Primitive .U32) (.Numeric 1) .NoLink none,
       .mk "c" (.Primitive .U16) (.Numeric 2) .NoLink none,
       .mk "d" (.Primitive .U8) (.Numeric 3) .NoLink none] none)
    ⟨._64Bit, false, false, none, true, .C99⟩
    [⟨.mk "a" (.Primitive .U64) (.Numeric 0) .NoLink none, 8⟩,
     ⟨.mk "b" (.Primitive .U32) (.Numeric 1) .NoLink none, 4⟩,
     ⟨.mk "c" (.Primitive .U16) (.Numeric 2) .NoLink none, 2⟩,
     ⟨.mk "d" (.Primitive .U8) (.Numeric 3) .NoLink none, 1⟩] rfl
  exact h.1

-- ## Claim C2: packing monotonicity of `estimate_size`

theorem sort_non_aligned_congr (l : List SizedStructMember)
    (c1 c2 : CompileConfigurations) (h : c1.architecture = c2.architecture) :
    sort_non_aligned l c1 = sort_non_aligned l c2 := by
  unfold sort_non_aligned
  rw [h]

theorem sort_members_congr (sd : StructDefinition) (c1 c2 : CompileConfigurations)
    (h : c1.architecture = c2.architecture) :
    sd.sort_members c1 = sd.sort_members c2 := by
  unfold StructDefinition.sort_members
  cases sizedMembersOf sd.members with
  | error e => rfl
  | ok sized =>
    show Except.ok (List.map SizedStructMember.member
        ((classifyLoop c1.architecture sized).1 ++ (classifyLoop c1.architecture sized).2.1 ++
         (classifyLoop c1.architecture sized).2.2.1 ++
         sort_non_aligned (classifyLoop c1.architecture sized).2.2.2 c1)) =
      Except.ok (List.map SizedStructMember.member
        ((classifyLoop c2.architecture sized).1 ++ (classifyLoop c2.architecture sized).2.1 ++
         (classifyLoop c2.architecture sized).2.2.1 ++
         sort_non_aligned (classifyLoop c2.architecture sized).2.2.2 c2))
    rw [h, sort_non_aligned_congr (classifyLoop c2.architecture sized).2.2.2 c1 c2 h]

theorem sort_members_ok (sd : StructDefinition) (cfg : CompileConfigurations)
    (zs : List SizedStructMember) (h : sizedMembersOf sd.members = .ok zs) :
    sd.sort_members cfg =
      .ok (((classifyLoop cfg.architecture zs).1 ++ (classifyLoop cfg.architecture zs).2.1 ++
        (classifyLoop cfg.architecture zs).2.2.1 ++
        sort_non_aligned (classifyLoop cfg.architecture zs).2.2.2 cfg).map
          SizedStructMember.member) := by
  unfold StructDefinition.sort_members
  rw [h]

theorem estimate_size_ok_iff (sd : StructDefinition) (cfg : CompileConfigurations) (k : Nat) :
    sd.estimate_size cfg = .ok k ↔
      ∃ layout sizes,
        (if cfg.sort then sd.sort_members cfg else .ok sd.members) = .ok layout ∧
        memberSizes layout = .ok sizes ∧
        estimateWalk cfg.pack_data 0 sizes = k := by
  constructor
  · intro hk
    unfold StructDefinition.estimate_size at hk
    split at hk
    · cases hk
    · rename_i layout heq
      split at hk
      · cases hk
      · rename_i sizes heq2
        injection hk with hk'
        exact ⟨layout, sizes, heq, heq2, hk'⟩
  · rintro ⟨layout, sizes, h1, h2, h3⟩
    unfold StructDefinition.estimate_size
    rw [h1]
    show (match memberSizes layout with
      | Except.error e => Except.error e
      | Except.ok sizes => Except.ok (estimateWalk cfg.pack_data 0 sizes)) = Except.ok k
    rw [h2]
    show Except.ok (estimateWalk cfg.pack_data 0 sizes) = Except.ok k
    rw [h3]

theorem estimateWalk_mono :
    ∀ (sizes : List Nat) (off1 off2 : Nat), off1 ≤ off2 →
      estimateWalk true off1 sizes ≤ estimateWalk false off2 sizes := by
  intro sizes
  induction sizes with
  | nil => intro off1 off2 h; simpa [estimateWalk] using h
  | cons s rest ih =>
    intro off1 off2 h
    by_cases hs : s = 0
    · simpa [estimateWalk, hs] using ih off1 off2 h
    · simp only [estimateWalk, if_neg hs]
      rw [if_neg (by simp)]
      split
      · exact ih _ _ (by omega)
      · exact ih _ _ (by omega)

/-- The spec's equality condition: walking the layout order with a running
offset and no padding, every member's alignment requirement already divides
the offset at which it is placed (size-0 members are skipped). -/
def wellAlignedWalk (offset : Nat) : List Nat → Bool
  | [] => true
  | s :: rest =>
    if s = 0 then wellAlignedWalk offset rest
    else decide (offset % member_alignment_size s = 0) && wellAlignedWalk (offset + s) rest

theorem estimateWalk_eq_of_aligned :
    ∀ (sizes : List Nat) (off : Nat), wellAlignedWalk off sizes = true →
      estimateWalk false off sizes = estimateWalk true off sizes := by
  intro sizes
  induction sizes with
  | nil => intro off _; rfl
  | cons s rest ih =>
    intro off hal
    by_cases hs : s = 0
    · simp only [wellAlignedWalk, if_pos hs] at hal
      simpa [estimateWalk, hs] using ih off hal
    · simp only [wellAlignedWalk, if_neg hs, Bool.and_eq_true, decide_eq_true_eq] at hal
      simp only [estimateWalk, if_neg hs]
      rw [if_neg (by simp [hal.1]), if_neg (by simp)]
      exact ih _ hal.2

/-- **C2** (confirmed).  For every struct and every pair of configurations
differing only in `pack_data`, `estimate_size` with packing disabled is ≥
`estimate_size` with packing enabled, and the two are equal whenever,
walking the layout order, every member's alignment requirement
(1/2/4/8 by the size thresholds) already divides the running offset at
which the member is placed. -/
theorem C2_estimate_size_pack_monotone (sd : StructDefinition) (architecture : Architecture)
    (pack_metadata : Bool) (section_name : Option String) (srt : Bool) (c_standard : CStandard)
    (n m : Nat)
    (hpacked : sd.estimate_size
      ⟨architecture, true, pack_metadata, section_name, srt, c_standard⟩ = .ok n)
    (hunpacked : sd.estimate_size
      ⟨architecture, false, pack_metadata, section_name, srt, c_standard⟩ = .ok m) :
    n ≤ m ∧
      ∀ layout sizes,
        (if srt then
          sd.sort_members ⟨architecture, false, pack_metadata, section_name, srt, c_standard⟩
         else .ok sd.members) = .ok layout →
        memberSizes layout = .ok sizes →
        wellAlignedWalk 0 sizes = true → n = m := by
  rcases (estimate_size_ok_iff _ _ _).mp hpacked with ⟨lp, sp, hlp, hsp, hn⟩
  rcases (estimate_size_ok_iff _ _ _).mp hunpacked with ⟨lu, su, hlu, hsu, hm⟩
  have hsm : StructDefinition.sort_members sd
      ⟨architecture, true, pack_metadata, section_name, srt, c_standard⟩ =
      StructDefinition.sort_members sd
      ⟨architecture, false, pack_metadata, section_name, srt, c_standard⟩ :=
    sort_members_congr sd _ _ rfl
  have hll : lp = lu := by
    rw [hsm] at hlp
    rw [hlp] at hlu
    exact (Except.ok.injEq _ _).mp hlu
  subst hll
  rw [hsp] at hsu
  cases hsu
  constructor
  · rw [← hn, ← hm]
    exact estimateWalk_mono sp 0 0 le_rfl
  · intro layout sizes h1 h2 hal
    rw [hsm] at hlp
    rw [hlp] at h1
    cases h1
    rw [hsp] at h2
    cases h2
    rw [← hn, ← hm]
    exact (estimateWalk_eq_of_aligned sp 0 hal).symm

/-- Witness for C2 at a concrete struct of member sizes {1, 8, 1} on a
64-bit target with sorting enabled: both packed and unpacked estimates are
10 and the aligned-walk condition holds for the layout `[8, 1, 1]`. -/
theorem C2_witness :
    (10 : Nat) ≤ 10 ∧
      ∀ layout sizes,
        (if true then
          (StructDefinition.mk "S"
            [.mk "x" (.Primitive .U8) (.Numeric 0) .NoLink none,
             .mk "y" (.Primitive .U64) (.Numeric 1) .NoLink none,
             .mk "z" (.Primitive .Char) (.Numeric 2) .NoLink none] none).sort_members
            ⟨._64Bit, false, false, none, true, .C99⟩
         else .ok (StructDefinition.mk "S"
            [.mk "x" (.Primitive .U8) (.Numeric 0) .NoLink none,
             .mk "y" (.Primitive .U64) (.Numeric 1) .NoLink none,
             .mk "z" (.Primitive .Char) (.Numeric 2) .NoLink none] none).members) = .ok layout →
        memberSizes layout = .ok sizes →
        wellAlignedWalk 0 sizes = true → (10 : Nat) = 10 :=
  C2_estimate_size_pack_monotone
    (StructDefinition.mk "S"
      [.mk "x" (.Primitive .U8) (.Numeric 0) .NoLink none,
       .mk "y" (.Primitive .U64) (.Numeric 1) .NoLink none,
       .mk "z" (.Primitive .Char) (.Numeric 2) .NoLink none] none)
    ._64Bit false none true .C99 10 10 rfl rfl

-- ## Global sizing pass (`CConfigurations::parse`, `src/c_utilities.rs`)

/-- A schema file as consumed by the global sizing pass.  Of the file's
definition lists only the struct list is consulted there; the enum,
bitfield, define and include lists (and the file's path strings) play no
part in the passes embedded here and are omitted. -/
structure RuneFileDescription where
  name : String
  structs : List StructDefinition

/-- `amount_of_messages += file.definitions.structs.len()` accumulated over
the files. -/
def amount_of_messages : List RuneFileDescription → Nat
  | [] => 0
  | file :: rest => file.structs.length + amount_of_messages rest

/-- The inner loop of `CConfigurations::parse`: fold the running largest
estimated size over one file's structs
(`if estimated_size > largest_message_size { ... }`). -/
def structsLargest (configurations : CompileConfigurations) :
    List StructDefinition → Nat → Except CompilerError Nat
  | [], largest => .ok largest
  | sd :: rest, largest =>
    match sd.estimate_size configurations with
    | .error e => .error e
    | .ok estimated_size =>
      structsLargest configurations rest
        (if largest < estimated_size then estimated_size else largest)

/-- The outer loop of `CConfigurations::parse` over all files. -/
def filesLargest (configurations : CompileConfigurations) :
    List RuneFileDescription → Nat → Except CompilerError Nat
  | [], largest => .ok largest
  | file :: rest, largest =>
    match structsLargest configurations file.structs largest with
    | .error e => .error e
    | .ok l => filesLargest configurations rest l

/-- The derived `CConfigurations` record.  The Rust struct's
`largest_message_index` field (tracked through the external
`FieldIndex::value` accessor and consumed only by output paths not modelled
here) is omitted. -/
structure CConfigurations where
  compiler_configurations : CompileConfigurations
  field_size_type_size : Nat
  field_offset_type_size : Nat
  message_size_type_size : Nat
  parser_index_type_size : Nat

/-- `CConfigurations::parse` (`src/c_utilities.rs`): the one-time global
sizing pass.  The width matches
(`0x00000000..=0x000000FF => 1`, `0x00000100..=0x0000FFFF => 2`,
`0x00010000..=0xFFFFFFFF => 4`, `_ => 8`; for the message size `0` is a
`ConfigurationError`) are rendered as the equivalent `≤`-chains. -/
def CConfigurations.parse (file_descriptions : List RuneFileDescription)
    (configurations : CompileConfigurations) : Except CompilerError CConfigurations :=
  match filesLargest configurations file_descriptions 0 with
  | .error e => .error e
  | .ok largest_message_size =>
    let amount := amount_of_messages file_descriptions
    let parser_index_type_size : Nat :=
      if amount ≤ 0xFF then 1 else if amount ≤ 0xFFFF then 2
      else if amount ≤ 0xFFFFFFFF then 4 else 8
    match largest_message_size with
    | 0 => .error CompilerError.ConfigurationError
    | _ =>
      let message_size_type_size : Nat :=
        if largest_message_size ≤ 0xFF then 1 else if largest_message_size ≤ 0xFFFF then 2
        else if largest_message_size ≤ 0xFFFFFFFF then 4 else 8
      .ok ⟨configurations, message_size_type_size, message_size_type_size,
           message_size_type_size, parser_index_type_size⟩

-- ## Claim C5: the global integer-width choices

/-- Modelled from the spec: "pick the smallest unsigned integer width
(1/2/4/8 bytes, thresholds at 0xFF/0xFFFF/0xFFFFFFFF)". -/
def smallest_width (value : Nat) : Nat :=
  if value ≤ 0xFF then 1 else if value ≤ 0xFFFF then 2
  else if value ≤ 0xFFFFFFFF then 4 else 8

/-- **C5** (confirmed).  The one-time global sizing pass chooses the
message-count-indexing width from the total struct count and the
message-size width from the maximum estimated struct size, each as the
smallest of 1/2/4/8 bytes with thresholds 0xFF/0xFFFF/0xFFFFFFFF, and the
field-offset and field-size widths always equal the message-size width.
Instantiated at a schema with one struct of estimated size 300 and 2
structs total, this yields a 2-byte message-size width and a 1-byte count
width (see the witness). -/
theorem C5_global_sizing (files : List RuneFileDescription)
    (configurations : CompileConfigurations) (r : CConfigurations)
    (h : CConfigurations.parse files configurations = .ok r) :
    r.parser_index_type_size = smallest_width (amount_of_messages files) ∧
      (∃ largest, filesLargest configurations files 0 = .ok largest ∧ 0 < largest ∧
        r.message_size_type_size = smallest_width largest) ∧
      r.field_offset_type_size = r.message_size_type_size ∧
      r.field_size_type_size = r.message_size_type_size := by
  unfold CConfigurations.parse at h
  split at h
  · cases h
  · rename_i largest heq
    cases largest with
    | zero => cases h
    | succ n =>
      injection h with h'
      subst h'
      exact ⟨rfl, ⟨n + 1, heq, Nat.succ_pos n, rfl⟩, rfl, rfl⟩

/-- The demonstration schema for C5: one file with two structs, one of
estimated size 300 (an array of 300 `u8`) and one of estimated size 1. -/
def demoSchemaC5 : List RuneFileDescription :=
  [⟨"demo",
    [.mk "Big" [.mk "bytes" (.Array (.Primitive .U8) (.Integer 300)) (.Numeric 0) .NoLink none] none,
     .mk "Small" [.mk "b" (.Primitive .U8) (.Numeric 0) .NoLink none] none]⟩]

def demoConfig : CompileConfigurations :=
  ⟨._64Bit, false, false, none, true, .C99⟩

/-- Witness for C5: on the demonstration schema (2 structs, largest
estimated size 300) the pass picks a 1-byte count width and 2-byte
message/field-offset/field-size widths. -/
theorem C5_witness :
    (⟨demoConfig, 2, 2, 2, 1⟩ : CConfigurations).parser_index_type_size =
        smallest_width (amount_of_messages demoSchemaC5) ∧
      (∃ largest, filesLargest demoConfig demoSchemaC5 0 = .ok largest ∧ 0 < largest ∧
        (⟨demoConfig, 2, 2, 2, 1⟩ : CConfigurations).message_size_type_size =
          smallest_width largest) ∧
      (⟨demoConfig, 2, 2, 2, 1⟩ : CConfigurations).field_offset_type_size =
        (⟨demoConfig, 2, 2, 2, 1⟩ : CConfigurations).message_size_type_size ∧
      (⟨demoConfig, 2, 2, 2, 1⟩ : CConfigurations).field_size_type_size =
        (⟨demoConfig, 2, 2, 2, 1⟩ : CConfigurations).message_size_type_size :=
  C5_global_sizing demoSchemaC5 demoConfig ⟨demoConfig, 2, 2, 2, 1⟩ rfl

-- ## Claim C6: zero-size structs

theorem sizedMembersOf_all_zero (l : List StructMember)
    (h : ∀ m ∈ l, m.c_size = .ok 0) :
    sizedMembersOf l = .ok (l.map (fun m => ⟨m, 0⟩)) := by
  induction l with
  | nil => rfl
  | cons m rest ih =>
    have hm := h m (List.mem_cons_self m rest)
    have hrest := ih (fun x hx => h x (List.mem_cons_of_mem m hx))
    simp [sizedMembersOf, hm, hrest]

theorem memberSizes_all_zero (l : List StructMember)
    (h : ∀ m ∈ l, m.c_size = .ok 0) :
    memberSizes l = .ok (l.map (fun _ => 0)) := by
  induction l with
  | nil => rfl
  | cons m rest ih =>
    have hm := h m (List.mem_cons_self m rest)
    have hrest := ih (fun x hx => h x (List.mem_cons_of_mem m hx))
    simp [memberSizes, hm, hrest]

theorem estimateWalk_all_zero (pack : Bool) :
    ∀ (sizes : List Nat) (off : Nat), (∀ s ∈ sizes, s = 0) →
      estimateWalk pack off sizes = off := by
  intro sizes
  induction sizes with
  | nil => intro off _; rfl
  | cons s rest ih =>
    intro off h
    have hs := h s (List.mem_cons_self s rest)
    simp [estimateWalk, hs, ih off (fun x hx => h x (List.mem_cons_of_mem s hx))]

theorem structsLargest_all_zero (configurations : CompileConfigurations) :
    ∀ (l : List StructDefinition) (largest : Nat),
      (∀ s ∈ l, s.estimate_size configurations = .ok 0) →
      structsLargest configurations l largest = .ok largest := by
  intro l
  induction l with
  | nil => intro largest _; rfl
  | cons sd rest ih =>
    intro largest h
    have hsd := h sd (List.mem_cons_self sd rest)
    have hrest := ih largest (fun x hx => h x (List.mem_cons_of_mem sd hx))
    simp [structsLargest, hsd, hrest]

/-- All structs of all files, in order (the iteration domain of the global
sizing pass). -/
def allStructs : List RuneFileDescription → List StructDefinition
  | [] => []
  | file :: rest => file.structs ++ allStructs rest

theorem filesLargest_all_zero (configurations : CompileConfigurations) :
    ∀ (files : List RuneFileDescription),
      (∀ s ∈ allStructs files, s.estimate_size configurations = .ok 0) →
      filesLargest configurations files 0 = .ok 0 := by
  intro files
  induction files with
  | nil => intro _; rfl
  | cons file rest ih =>
    intro h
    have hfile : ∀ s ∈ file.structs, s.estimate_size configurations = .ok 0 := fun s hs =>
      h s (by simp [allStructs, hs])
    have hrest : ∀ s ∈ allStructs rest, s.estimate_size configurations = .ok 0 := fun s hs =>
      h s (by simp [allStructs, hs])
    simp [filesLargest, structsLargest_all_zero configurations file.structs 0 hfile, ih hrest]

/-- **C6** (counterexample).  A struct whose only member resolves to size 0:
`estimate_size` returns `.ok 0` — it does not fail with
`ConfigurationError` as the claim states. -/
theorem C6_counterexample :
    StructMember.c_size (.mk "e" .Empty (.Numeric 0) .NoLink none) = .ok 0 ∧
      StructDefinition.estimate_size
        (.mk "Zero" [.mk "e" .Empty (.Numeric 0) .NoLink none] none)
        ⟨._64Bit, false, false, none, true, .C99⟩ = .ok 0 ∧
      StructDefinition.estimate_size
        (.mk "Zero" [.mk "e" .Empty (.Numeric 0) .NoLink none] none)
        ⟨._64Bit, false, false, none, true, .C99⟩ ≠
        .error CompilerError.ConfigurationError := by
  refine ⟨rfl, rfl, fun h => ?_⟩
  exact Except.noConfusion h

/-- **C6** (amended claim).  For every struct whose members all resolve to
size 0, `estimate_size` returns the byte count 0 (for any configuration);
the `ConfigurationError` is instead raised by the one-time global sizing
pass `CConfigurations::parse` when every struct of the schema resolves to
size 0 (so the largest message size is 0). -/
theorem C6_zero_struct_sizing (sd : StructDefinition) (configurations : CompileConfigurations)
    (h : ∀ m ∈ sd.members, m.c_size = .ok 0) :
    sd.estimate_size configurations = .ok 0 ∧
      ∀ files : List RuneFileDescription,
        (∀ s ∈ allStructs files, s.estimate_size configurations = .ok 0) →
        CConfigurations.parse files configurations = .error CompilerError.ConfigurationError := by
  constructor
  · rw [estimate_size_ok_iff]
    cases hsort : configurations.sort with
    | false =>
      refine ⟨sd.members, sd.members.map (fun _ => 0), by simp [hsort], memberSizes_all_zero _ h, ?_⟩
      apply estimateWalk_all_zero
      intro s hs
      rcases List.mem_map.mp hs with ⟨m, hm, heq⟩
      exact heq.symm
    | true =>
      have hzero : ∀ z ∈ sd.members.map (fun m => (⟨m, 0⟩ : SizedStructMember)), z.size = 0 := by
        intro z hz
        rcases List.mem_map.mp hz with ⟨m, _, rfl⟩
        rfl
      have hsm := sort_members_ok sd configurations _ (sizedMembersOf_all_zero sd.members h)
      rw [classifyLoop_eq_filters] at hsm
      have h8 : (sd.members.map (fun m => (⟨m, 0⟩ : SizedStructMember))).filter
          (isClass8 configurations.architecture) = [] := by
        rw [List.filter_eq_nil_iff]
        intro a ha
        simp [isClass8, hzero a ha]
      have h4 : (sd.members.map (fun m => (⟨m, 0⟩ : SizedStructMember))).filter
          (isClass4 configurations.architecture) = [] := by
        rw [List.filter_eq_nil_iff]
        intro a ha
        simp [isClass4, hzero a ha]
      have h2 : (sd.members.map (fun m => (⟨m, 0⟩ : SizedStructMember))).filter
          (isClass2 configurations.architecture) = [] := by
        rw [List.filter_eq_nil_iff]
        intro a ha
        simp [isClass2, hzero a ha]
      have h1 : (sd.members.map (fun m => (⟨m, 0⟩ : SizedStructMember))).filter
          (isUnaligned configurations.architecture) = [] := by
        rw [List.filter_eq_nil_iff]
        intro a ha
        simp [isUnaligned, hzero a ha]
      simp only [h8, h4, h2, h1] at hsm
      simp only [sort_non_aligned, sortNonAlignedLoop, List.filter_nil, List.nil_append,
        List.map_nil] at hsm
      exact ⟨[], [], by simp [hsort, hsm], rfl, rfl⟩
  · intro files hall
    unfold CConfigurations.parse
    rw [filesLargest_all_zero configurations files hall]

/-- Witness for the amended C6 at the concrete zero-size struct and schema. -/
theorem C6_witness :
    StructDefinition.estimate_size
        (.mk "Zero" [.mk "z" .Empty (.Numeric 0) .NoLink none] none) demoConfig = .ok 0 ∧
      ∀ files : List RuneFileDescription,
        (∀ s ∈ allStructs files, s.estimate_size demoConfig = .ok 0) →
        CConfigurations.parse files demoConfig = .error CompilerError.ConfigurationError :=
  C6_zero_struct_sizing (.mk "Zero" [.mk "z" .Empty (.Numeric 0) .NoLink none] none) demoConfig
    (by
      intro m hm
      simp only [StructDefinition.members, List.mem_cons, List.not_mem_nil, or_false] at hm
      subst hm
      rfl)

-- ## Claim C7: characterisation of recursive size resolution

/-- Spec-worded side condition on an array's size expression: it must be a
direct integer or a define resolving to a positive-integer literal
(the scanner's `PositiveInteger` variant); booleans, negative integers,
floats and valueless defines are not positive-integer literals. -/
def arraySizeResolvable : ArraySize → Bool
  | .Integer _ => true
  | .UserDefinition definition =>
    match definition.value with
    | .NumericLiteral (.PositiveInteger _) => true
    | _ => false

/-- The element count an array size resolves to (junk 0 when not resolvable). -/
def specArrayCount : ArraySize → Nat
  | .Integer v => v
  | .UserDefinition definition =>
    match definition.value with
    | .NumericLiteral (.PositiveInteger v) => v
    | _ => 0

theorem resolve_spec (asz : ArraySize) :
    (arraySizeResolvable asz = true → asz.resolve = .ok (specArrayCount asz)) ∧
      (arraySizeResolvable asz = false → asz.resolve = .error CompilerError.MalformedSource) := by
  cases asz with
  | Integer v => exact ⟨fun _ => rfl, fun hf => by simp [arraySizeResolvable] at hf⟩
  | UserDefinition d =>
    cases hd : d.value with
    | NoValue =>
      refine ⟨fun ht => ?_, fun _ => ?_⟩
      · simp [arraySizeResolvable, hd] at ht
      · simp [ArraySize.resolve, hd]
    | NumericLiteral n =>
      cases n with
      | PositiveInteger v =>
        refine ⟨fun _ => ?_, fun hf => ?_⟩
        · simp [ArraySize.resolve, specArrayCount, hd]
        · simp [arraySizeResolvable, hd] at hf
      | Boolean b =>
        refine ⟨fun ht => ?_, fun _ => ?_⟩
        · simp [arraySizeResolvable, hd] at ht
        · simp [ArraySize.resolve, hd]
      | NegativeInteger v =>
        refine ⟨fun ht => ?_, fun _ => ?_⟩
        · simp [arraySizeResolvable, hd] at ht
        · simp [ArraySize.resolve, hd]
      | Float bits =>
        refine ⟨fun ht => ?_, fun _ => ?_⟩
        · simp [arraySizeResolvable, hd] at ht
        · simp [ArraySize.resolve, hd]

mutual

/-- Spec-worded resolvability of a member's size: the member's user-defined
reference (when its type needs one) must be linked, an array's size
expression must resolve to a positive-integer literal, and — for a linked
struct — the same must hold recursively for that struct's own members. -/
def sizeResolvable : StructMember → Bool
  | .mk _ data_type _ link _ =>
    match data_type with
    | .Primitive _ => true
    | .Empty => true
    | .UserDefined _ => linkResolvable link
    | .Array array_type field_size =>
      arraySizeResolvable field_size && elementResolvable array_type link

/-- An array element type is resolvable when it is a primitive, or a linked
user definition. -/
def elementResolvable : ArrayType → UserDefinitionLink → Bool
  | .Primitive _, _ => true
  | .UserDefined _, link => linkResolvable link

/-- A user-defined reference is resolvable when linked (recursively, for a
linked struct). -/
def linkResolvable : UserDefinitionLink → Bool
  | .NoLink => false
  | .BitfieldLink _ => true
  | .EnumLink _ => true
  | .StructLink (.mk _ struct_members _) => allSizeResolvable struct_members

def allSizeResolvable : List StructMember → Bool
  | [] => true
  | member :: rest => sizeResolvable member && allSizeResolvable rest

end

mutual

/-- Spec-worded resolution rules: primitive ⇒ fixed size; user-defined ⇒
linked bitfield/enum backing-type size, or the sum of a linked struct's own
resolved member sizes; array ⇒ element size times element count (junk 0
when not resolvable). -/
def specMemberSize : StructMember → Nat
  | .mk _ data_type _ link _ =>
    match data_type with
    | .Primitive primitive => primitive.c_size
    | .Empty => 0
    | .UserDefined _ => specLinkSize link
    | .Array array_type field_size =>
      specElementSize array_type link * specArrayCount field_size

def specElementSize : ArrayType → UserDefinitionLink → Nat
  | .Primitive primitive, _ => primitive.c_size
  | .UserDefined _, link => specLinkSize link

def specLinkSize : UserDefinitionLink → Nat
  | .NoLink => 0
  | .BitfieldLink bitfield_definition => bitfield_definition.backing_type.c_size
  | .EnumLink enum_definition => enum_definition.backing_type.c_size
  | .StructLink (.mk _ struct_members _) => specMembersSize struct_members

def specMembersSize : List StructMember → Nat
  | [] => 0
  | member :: rest => specMemberSize member + specMembersSize rest

end

-- Unfolding equations of `StructMember.c_size`, one per constructor shape.

theorem c_size_mk_primitive {ident : String} {idx : FieldIndex} {link : UserDefinitionLink}
    {cmt : Option String} {p : Primitive} :
    (StructMember.mk ident (.Primitive p) idx link cmt).c_size = .ok p.c_size := rfl

theorem c_size_mk_empty {ident : String} {idx : FieldIndex} {link : UserDefinitionLink}
    {cmt : Option String} :
    (StructMember.mk ident .Empty idx link cmt).c_size = .ok 0 := rfl

theorem c_size_mk_user_nolink {ident name : String} {idx : FieldIndex} {cmt : Option String} :
    (StructMember.mk ident (.UserDefined name) idx .NoLink cmt).c_size =
      .error CompilerError.MalformedSource := rfl

theorem c_size_mk_user_bitfield {ident name : String} {idx : FieldIndex} {cmt : Option String}
    {b : BitfieldDefinition} :
    (StructMember.mk ident (.UserDefined name) idx (.BitfieldLink b) cmt).c_size =
      .ok b.backing_type.c_size := rfl

theorem c_size_mk_user_enum {ident name : String} {idx : FieldIndex} {cmt : Option String}
    {e : EnumDefinition} :
    (StructMember.mk ident (.UserDefined name) idx (.EnumLink e) cmt).c_size =
      .ok e.backing_type.c_size := rfl

theorem c_size_mk_user_struct {ident name n : String} {idx : FieldIndex} {cmt c : Option String}
    {ms : List StructMember} :
    (StructMember.mk ident (.UserDefined name) idx (.StructLink (.mk n ms c)) cmt).c_size =
      membersTotalSize ms := rfl

theorem c_size_mk_array_err {ident : String} {idx : FieldIndex} {link : UserDefinitionLink}
    {cmt : Option String} {array_type : ArrayType} {sz : ArraySize} {e : CompilerError}
    (h : sz.resolve = .error e) :
    (StructMember.mk ident (.Array array_type sz) idx link cmt).c_size = .error e := by
  cases array_type with
  | Primitive p => simp [StructMember.c_size, h]
  | UserDefined name =>
    cases link with
    | NoLink => simp [StructMember.c_size, h]
    | BitfieldLink b => simp [StructMember.c_size, h]
    | EnumLink e2 => simp [StructMember.c_size, h]
    | StructLink sd =>
      cases sd with
      | mk n ms c => simp [StructMember.c_size, h]

theorem c_size_mk_array_prim {ident : String} {idx : FieldIndex} {link : UserDefinitionLink}
    {cmt : Option String} {p : Primitive} {sz : ArraySize} {cnt : Nat}
    (h : sz.resolve = .ok cnt) :
    (StructMember.mk ident (.Array (.Primitive p) sz) idx link cmt).c_size =
      .ok (p.c_size * cnt) := by
  simp [StructMember.c_size, h]

theorem c_size_mk_array_user_nolink {ident name : String} {idx : FieldIndex}
    {cmt : Option String} {sz : ArraySize} {cnt : Nat} (h : sz.resolve = .ok cnt) :
    (StructMember.mk ident (.Array (.UserDefined name) sz) idx .NoLink cmt).c_size =
      .error CompilerError.MalformedSource := by
  simp [StructMember.c_size, h]

theorem c_size_mk_array_user_bitfield {ident name : String} {idx : FieldIndex}
    {cmt : Option String} {sz : ArraySize} {cnt : Nat} {b : BitfieldDefinition}
    (h : sz.resolve = .ok cnt) :
    (StructMember.mk ident (.Array (.UserDefined name) sz) idx (.BitfieldLink b) cmt).c_size =
      .ok (b.backing_type.c_size * cnt) := by
  simp [StructMember.c_size, h]

theorem c_size_mk_array_user_enum {ident name : String} {idx : FieldIndex}
    {cmt : Option String} {sz : ArraySize} {cnt : Nat} {e : EnumDefinition}
    (h : sz.resolve = .ok cnt) :
    (StructMember.mk ident (.Array (.UserDefined name) sz) idx (.EnumLink e) cmt).c_size =
      .ok (e.backing_type.c_size * cnt) := by
  simp [StructMember.c_size, h]

theorem c_size_mk_array_user_struct_ok {ident name n : String} {idx : FieldIndex}
    {cmt c : Option String} {sz : ArraySize} {cnt s : Nat} {ms : List StructMember}
    (h : sz.resolve = .ok cnt) (hms : membersTotalSize ms = .ok s) :
    (StructMember.mk ident (.Array (.UserDefined name) sz) idx
      (.StructLink (.mk n ms c)) cmt).c_size = .ok (s * cnt) := by
  simp [StructMember.c_size, h, hms]

theorem c_size_mk_array_user_struct_err {ident name n : String} {idx : FieldIndex}
    {cmt c : Option String} {sz : ArraySize} {cnt : Nat} {e2 : CompilerError}
    {ms : List StructMember}
    (h : sz.resolve = .ok cnt) (hms : membersTotalSize ms = .error e2) :
    (StructMember.mk ident (.Array (.UserDefined name) sz) idx
      (.StructLink (.mk n ms c)) cmt).c_size = .error e2 := by
  simp [StructMember.c_size, h, hms]

theorem c_size_spec_rank (k : Nat) :
    (∀ m : StructMember, sizeOf m ≤ k →
      (sizeResolvable m = true → m.c_size = .ok (specMemberSize m)) ∧
        (sizeResolvable m = false → m.c_size = .error CompilerError.MalformedSource)) ∧
      (∀ l : List StructMember, sizeOf l ≤ k →
        (allSizeResolvable l = true → membersTotalSize l = .ok (specMembersSize l)) ∧
          (allSizeResolvable l = false →
            membersTotalSize l = .error CompilerError.MalformedSource)) := by
  induction k using Nat.strong_induction_on with
  | _ k ih =>
    constructor
    · intro m hm
      cases m with
      | mk ident data_type idx link cmt =>
        cases data_type with
        | Primitive p =>
          refine ⟨fun _ => ?_, fun hf => ?_⟩
          · rw [c_size_mk_primitive]
            simp [specMemberSize]
          · simp [sizeResolvable] at hf
        | Empty =>
          refine ⟨fun _ => ?_, fun hf => ?_⟩
          · rw [c_size_mk_empty]
            simp [specMemberSize]
          · simp [sizeResolvable] at hf
        | UserDefined name =>
          cases link with
          | NoLink =>
            refine ⟨fun ht => ?_, fun _ => c_size_mk_user_nolink⟩
            simp [sizeResolvable, linkResolvable] at ht
          | BitfieldLink b =>
            refine ⟨fun _ => ?_, fun hf => ?_⟩
            · rw [c_size_mk_user_bitfield]
              simp [specMemberSize, specLinkSize]
            · simp [sizeResolvable, linkResolvable] at hf
          | EnumLink e =>
            refine ⟨fun _ => ?_, fun hf => ?_⟩
            · rw [c_size_mk_user_enum]
              simp [specMemberSize, specLinkSize]
            · simp [sizeResolvable, linkResolvable] at hf
          | StructLink sd =>
            cases sd with
            | mk n ms c =>
              have hms : sizeOf ms < k := by
                have hlt : sizeOf ms < sizeOf (StructMember.mk ident (.UserDefined name) idx
                    (.StructLink (.mk n ms c)) cmt) := by
                  simp
                  omega
                omega
              have ihl := (ih (sizeOf ms) hms).2 ms le_rfl
              refine ⟨fun ht => ?_, fun hf => ?_⟩
              · have ht' : allSizeResolvable ms = true := by
                  simpa [sizeResolvable, linkResolvable] using ht
                rw [c_size_mk_user_struct, ihl.1 ht']
                simp [specMemberSize, specLinkSize]
              · have hf' : allSizeResolvable ms = false := by
                  simpa [sizeResolvable, linkResolvable] using hf
                rw [c_size_mk_user_struct, ihl.2 hf']
        | Array array_type field_size =>
          have hres := resolve_spec field_size
          cases har : arraySizeResolvable field_size with
          | false =>
            refine ⟨fun ht => ?_, fun _ => c_size_mk_array_err (hres.2 har)⟩
            simp [sizeResolvable, har] at ht
          | true =>
            have hok := hres.1 har
            cases array_type with
            | Primitive p =>
              refine ⟨fun _ => ?_, fun hf => ?_⟩
              · rw [c_size_mk_array_prim hok]
                simp [specMemberSize, specElementSize]
              · simp [sizeResolvable, har, elementResolvable] at hf
            | UserDefined name =>
              cases link with
              | NoLink =>
                refine ⟨fun ht => ?_, fun _ => c_size_mk_array_user_nolink hok⟩
                simp [sizeResolvable, har, elementResolvable, linkResolvable] at ht
              | BitfieldLink b =>
                refine ⟨fun _ => ?_, fun hf => ?_⟩
                · rw [c_size_mk_array_user_bitfield hok]
                  simp [specMemberSize, specElementSize, specLinkSize]
                · simp [sizeResolvable, har, elementResolvable, linkResolvable] at hf
              | EnumLink e =>
                refine ⟨fun _ => ?_, fun hf => ?_⟩
                · rw [c_size_mk_array_user_enum hok]
                  simp [specMemberSize, specElementSize, specLinkSize]
                · simp [sizeResolvable, har, elementResolvable, linkResolvable] at hf
              | StructLink sd =>
                cases sd with
                | mk n ms c =>
                  have hms : sizeOf ms < k := by
                    have hlt : sizeOf ms < sizeOf (StructMember.mk ident
                        (.Array (.UserDefined name) field_size) idx
                        (.StructLink (.mk n ms c)) cmt) := by
                      simp
                      omega
                    omega
                  have ihl := (ih (sizeOf ms) hms).2 ms le_rfl
                  refine ⟨fun ht => ?_, fun hf => ?_⟩
                  · have ht' : allSizeResolvable ms = true := by
                      simpa [sizeResolvable, har, elementResolvable, linkResolvable] using ht
                    rw [c_size_mk_array_user_struct_ok hok (ihl.1 ht')]
                    simp [specMemberSize, specElementSize, specLinkSize]
                  · have hf' : allSizeResolvable ms = false := by
                      simpa [sizeResolvable, har, elementResolvable, linkResolvable] using hf
                    exact c_size_mk_array_user_struct_err hok (ihl.2 hf')
    · intro l hl
      cases l with
      | nil =>
        refine ⟨fun _ => ?_, fun hf => ?_⟩
        · simp [membersTotalSize, specMembersSize]
        · simp [allSizeResolvable] at hf
      | cons mm rest =>
        have hmm : sizeOf mm < k := by
          have hlt : sizeOf mm < sizeOf (mm :: rest) := by
            simp
            omega
          omega
        have hrest : sizeOf rest < k := by
          have hlt : sizeOf rest < sizeOf (mm :: rest) := by
            simp
          omega
        have ihm := (ih (sizeOf mm) hmm).1 mm le_rfl
        have ihr := (ih (sizeOf rest) hrest).2 rest le_rfl
        refine ⟨fun ht => ?_, fun hf => ?_⟩
        · have h1 : sizeResolvable mm = true ∧ allSizeResolvable rest = true := by
            simpa [allSizeResolvable] using ht
          simp [membersTotalSize, ihm.1 h1.1, ihr.1 h1.2, specMembersSize]
        · cases h1 : sizeResolvable mm with
          | false => simp [membersTotalSize, ihm.2 h1]
          | true =>
            have h2 : allSizeResolvable rest = false := by
              have hand : (sizeResolvable mm && allSizeResolvable rest) = false := by
                simpa [allSizeResolvable] using hf
              simpa [h1] using hand
            simp [membersTotalSize, ihm.1 h1, ihr.2 h2]

theorem c_size_spec (m : StructMember) :
    (sizeResolvable m = true → m.c_size = .ok (specMemberSize m)) ∧
      (sizeResolvable m = false → m.c_size = .error CompilerError.MalformedSource) :=
  (c_size_spec_rank (sizeOf m)).1 m le_rfl

theorem membersTotalSize_spec (l : List StructMember) :
    (allSizeResolvable l = true → membersTotalSize l = .ok (specMembersSize l)) ∧
      (allSizeResolvable l = false → membersTotalSize l = .error CompilerError.MalformedSource) :=
  (c_size_spec_rank (sizeOf l)).2 l le_rfl

/-- **C7** (confirmed).  `member.c_size` fails with `MalformedSource`
exactly when the member's (recursively needed) user-defined references are
unlinked or an array size expression does not resolve to a positive-integer
literal; in all other cases it returns the byte count given by the
resolution rules (primitive fixed size, linked bitfield/enum backing-type
size, linked struct sum of resolved member sizes, array element size times
element count). -/
theorem C7_c_size_resolution (m : StructMember) :
    (sizeResolvable m = true → m.c_size = .ok (specMemberSize m)) ∧
      (sizeResolvable m = false → m.c_size = .error CompilerError.MalformedSource) :=
  c_size_spec m

/-- Witness for C7: an unlinked user-defined member fails with
`MalformedSource`; a linked two-member struct reference resolves to the sum
3 = 2 + 1; an array of a bad (boolean) define size fails. -/
theorem C7_witness :
    StructMember.c_size (.mk "bad" (.UserDefined "Missing") (.Numeric 0) .NoLink none) =
        .error CompilerError.MalformedSource ∧
      StructMember.c_size
        (.mk "nested" (.UserDefined "Inner") (.Numeric 1)
          (.StructLink (.mk "Inner"
            [.mk "a" (.Primitive .U16) (.Numeric 0) .NoLink none,
             .mk "b" (.Primitive .U8) (.Numeric 1) .NoLink none] none)) none) = .ok 3 ∧
      StructMember.c_size
        (.mk "badarr" (.Array (.Primitive .U8) (.UserDefinition ⟨"D", .NumericLiteral (.Boolean true)⟩))
          (.Numeric 2) .NoLink none) = .error CompilerError.MalformedSource := by
  refine ⟨(C7_c_size_resolution _).2 ?_, ?_, (C7_c_size_resolution _).2 ?_⟩
  · simp [sizeResolvable, linkResolvable]
  · have h := (C7_c_size_resolution
      (.mk "nested" (.UserDefined "Inner") (.Numeric 1)
        (.StructLink (.mk "Inner"
          [.mk "a" (.Primitive .U16) (.Numeric 0) .NoLink none,
           .mk "b" (.Primitive .U8) (.Numeric 1) .NoLink none] none)) none)).1
      (by simp [sizeResolvable, linkResolvable, allSizeResolvable])
    rw [h]
    simp [specMemberSize, specLinkSize, specMembersSize, Primitive.c_size]
  · simp [sizeResolvable, arraySizeResolvable]

-- ## Bitfield layout generator (`output_bitfield`, `src/header.rs`)

/-- The backing-type gate of `output_bitfield`: integer primitives map to
their (unsigned, signed) rendering pair; any other backing type makes the
generator fail with `MalformedSource` before any ordering is emitted. -/
def bitfield_backing_pair : Primitive → Option (Primitive × Primitive)
  | .I8 | .U8 => some (.U8, .I8)
  | .I16 | .U16 => some (.U16, .I16)
  | .I32 | .U32 => some (.U32, .I32)
  | .I64 | .U64 => some (.U64, .I64)
  | _ => none

/-- The `total_size` accumulation loop over the declared members' bit widths. -/
def totalBits : List BitfieldMember → Nat
  | [] => 0
  | member :: rest => member.size.bits + totalBits rest

/-- The synthetic `padding` member
(`BitSize::Unsigned((backing_type.c_size() * 8) - total_size)`, index 0). -/
def padding_member (bitfield_definition : BitfieldDefinition) : BitfieldMember :=
  { identifier := "padding"
    size := .Unsigned (bitfield_definition.backing_type.c_size * 8 -
      totalBits bitfield_definition.members)
    index := 0
    comment := some " Padding to ensure proper alignment " }

/-- The inner scan shared by both ordering loops: all declared members whose
declared index equals `i`, in declaration order. -/
def index_block (bitfield_definition : BitfieldDefinition) (i : Nat) : List BitfieldMember :=
  bitfield_definition.members.filter (fun member => decide (member.index = i))

/-- The little-endian member collection loop:
`for i in 0..members.len() { for member in members { if member.index == i { push } } }`. -/
def little_endian_declared (bitfield_definition : BitfieldDefinition) : List BitfieldMember :=
  (List.range bitfield_definition.members.length).flatMap (index_block bitfield_definition)

/-- The full little-endian ordering: declared members ascending by index,
padding appended last. -/
def little_endian_order (bitfield_definition : BitfieldDefinition) : List BitfieldMember :=
  little_endian_declared bitfield_definition ++ [padding_member bitfield_definition]

/-- The big-endian member collection loop:
`for z in 0..len { let i = len - 1 - z; ... }`. -/
def big_endian_declared (bitfield_definition : BitfieldDefinition) : List BitfieldMember :=
  (List.range bitfield_definition.members.length).flatMap
    (fun z => index_block bitfield_definition (bitfield_definition.members.length - 1 - z))

/-- The full big-endian ordering: padding first, then declared members in
descending declared index. -/
def big_endian_order (bitfield_definition : BitfieldDefinition) : List BitfieldMember :=
  padding_member bitfield_definition :: big_endian_declared bitfield_definition

theorem count_index_block (b : BitfieldDefinition) (i : Nat) (a : BitfieldMember) :
    (index_block b i).count a = if a.index = i then b.members.count a else 0 := by
  by_cases ha : a.index = i
  · rw [if_pos ha]
    exact List.count_filter (by simp [ha])
  · rw [if_neg ha]
    rw [List.count_eq_zero]
    intro hmem
    exact ha (by simpa using (List.mem_filter.mp hmem).2)

theorem sum_if_range (idx c n : Nat) :
    ((List.range n).map (fun i => if idx = i then c else 0)).sum = if idx < n then c else 0 := by
  induction n with
  | zero => simp
  | succ n ih =>
    rw [List.range_succ, List.map_append, List.sum_append, ih]
    by_cases h1 : idx < n
    · have h2 : idx ≠ n := by omega
      have h3 : idx < n + 1 := by omega
      simp [h1, h2, h3]
    · by_cases h2 : idx = n
      · have h3 : idx < n + 1 := by omega
        simp [h1, h2, h3]
      · have h3 : ¬idx < n + 1 := by omega
        simp [h1, h2, h3]

theorem count_little_endian_declared (b : BitfieldDefinition) (a : BitfieldMember) :
    (little_endian_declared b).count a =
      if a.index < b.members.length then b.members.count a else 0 := by
  rw [little_endian_declared, List.count_flatMap]
  have hmap : (List.range b.members.length).map (List.count a ∘ index_block b) =
      (List.range b.members.length).map (fun i => if a.index = i then b.members.count a else 0) := by
    apply List.map_congr_left
    intro i _
    exact count_index_block b i a
  rw [hmap, sum_if_range]

theorem map_sub_range (n : Nat) :
    (List.range n).map (fun z => n - 1 - z) = (List.range n).reverse := by
  induction n with
  | zero => simp
  | succ n ih =>
    conv_lhs => rw [List.range_succ_eq_map]
    conv_rhs => rw [List.range_succ]
    simp only [List.map_cons, List.map_map, List.reverse_append, List.reverse_cons,
      List.reverse_nil, List.nil_append, List.singleton_append]
    congr 1
    rw [← ih]
    apply List.map_congr_left
    intro z _
    simp [Function.comp]
    omega

theorem big_endian_declared_eq_reverse (b : BitfieldDefinition) :
    big_endian_declared b = ((List.range b.members.length).reverse).flatMap (index_block b) := by
  rw [big_endian_declared, ← map_sub_range, List.flatMap_map]

theorem count_big_endian_declared (b : BitfieldDefinition) (a : BitfieldMember) :
    (big_endian_declared b).count a =
      if a.index < b.members.length then b.members.count a else 0 := by
  rw [big_endian_declared_eq_reverse, List.count_flatMap, List.map_reverse, List.sum_reverse]
  have hmap : (List.range b.members.length).map (List.count a ∘ index_block b) =
      (List.range b.members.length).map (fun i => if a.index = i then b.members.count a else 0) := by
    apply List.map_congr_left
    intro i _
    exact count_index_block b i a
  rw [hmap, sum_if_range]

/-- **C10** (confirmed).  A declared member appears in the emitted
little-endian and big-endian member collections iff its declared index is
strictly less than the number of declared members; a member with an
out-of-range index is silently omitted from both (the collection loops are
total — no error path exists there). -/
theorem C10_bitfield_index_omission (b : BitfieldDefinition) (m : BitfieldMember) :
    (m ∈ little_endian_declared b ↔ m ∈ b.members ∧ m.index < b.members.length) ∧
      (m ∈ big_endian_declared b ↔ m ∈ b.members ∧ m.index < b.members.length) := by
  constructor
  · rw [little_endian_declared]
    simp only [List.mem_flatMap, List.mem_range, index_block, List.mem_filter,
      decide_eq_true_eq]
    constructor
    · rintro ⟨i, hi, hmem, hidx⟩
      exact ⟨hmem, by omega⟩
    · rintro ⟨hmem, hidx⟩
      exact ⟨m.index, hidx, hmem, rfl⟩
  · rw [big_endian_declared]
    simp only [List.mem_flatMap, List.mem_range, index_block, List.mem_filter,
      decide_eq_true_eq]
    constructor
    · rintro ⟨z, hz, hmem, hidx⟩
      exact ⟨hmem, by omega⟩
    · rintro ⟨hmem, hidx⟩
      exact ⟨b.members.length - 1 - m.index, by omega, hmem, by omega⟩

-- ## Claim C8: the two bitfield orderings

/-- **C8** (counterexample).  A bitfield (backing `u8`, an integer
primitive) whose single declared member has declared index 1: the member is
omitted from both emitted orderings (cf. C10), so the little-endian
ordering does not "list the declared members by ascending declared index"
and the big-endian ordering does not list them either — the claim fails as
stated for bitfields with out-of-range declared indices. -/
theorem C8_counterexample :
    (bitfield_backing_pair
        (BitfieldDefinition.mk "Bad" .U8 [⟨"a", .Unsigned 3, 1, none⟩] none).backing_type).isSome =
        true ∧
      (⟨"a", .Unsigned 3, 1, none⟩ : BitfieldMember) ∈
        (BitfieldDefinition.mk "Bad" .U8 [⟨"a", .Unsigned 3, 1, none⟩] none).members ∧
      (⟨"a", .Unsigned 3, 1, none⟩ : BitfieldMember) ∉
        little_endian_order (BitfieldDefinition.mk "Bad" .U8 [⟨"a", .Unsigned 3, 1, none⟩] none) ∧
      (⟨"a", .Unsigned 3, 1, none⟩ : BitfieldMember) ∉
        big_endian_order (BitfieldDefinition.mk "Bad" .U8 [⟨"a", .Unsigned 3, 1, none⟩] none) := by
  refine ⟨rfl, by decide, by decide, by decide⟩

/-- **C8** (amended claim).  For every bitfield whose backing type is an
integer primitive, *whose declared indices are all below the member count*,
and whose member bit widths do not exceed the backing width: both emitted
orderings use the one synthetic padding member, whose bit count equals the
backing type's bit width minus the sum of the declared member bit widths;
the little-endian ordering is the declared members ascending by declared
index with the padding member appended last, and the big-endian ordering is
the padding member first followed by the declared members in descending
declared index (each ordering's declared part is a permutation of the
declared member list). -/
theorem C8_bitfield_orderings (b : BitfieldDefinition)
    (_hint : (bitfield_backing_pair b.backing_type).isSome = true)
    (hidx : ∀ m ∈ b.members, m.index < b.members.length)
    (hbits : totalBits b.members ≤ b.backing_type.c_size * 8) :
    (padding_member b).size.bits = b.backing_type.c_size * 8 - totalBits b.members ∧
      totalBits b.members + (padding_member b).size.bits = b.backing_type.c_size * 8 ∧
      little_endian_order b = little_endian_declared b ++ [padding_member b] ∧
      big_endian_order b = padding_member b :: big_endian_declared b ∧
      (little_endian_declared b).Perm b.members ∧
      (little_endian_declared b).Pairwise (fun x y => x.index ≤ y.index) ∧
      (big_endian_declared b).Perm b.members ∧
      (big_endian_declared b).Pairwise (fun x y => y.index ≤ x.index) := by
  refine ⟨rfl, ?_, rfl, rfl, ?_, ?_, ?_, ?_⟩
  · show totalBits b.members + (b.backing_type.c_size * 8 - totalBits b.members) =
      b.backing_type.c_size * 8
    omega
  · rw [List.perm_iff_count]
    intro a
    rw [count_little_endian_declared]
    by_cases hmem : a ∈ b.members
    · rw [if_pos (hidx a hmem)]
    · have h0 : b.members.count a = 0 := List.count_eq_zero.mpr hmem
      rw [h0]
      split <;> rfl
  · rw [little_endian_declared, List.pairwise_flatMap]
    constructor
    · intro i _
      apply List.pairwise_of_forall_mem_list
      intro x hx y hy
      have hxi : x.index = i := by
        simpa using (List.mem_filter.mp hx).2
      have hyi : y.index = i := by
        simpa using (List.mem_filter.mp hy).2
      omega
    · refine (List.pairwise_lt_range _).imp ?_
      intro i j hij x hx y hy
      have hxi : x.index = i := by
        simpa using (List.mem_filter.mp hx).2
      have hyj : y.index = j := by
        simpa using (List.mem_filter.mp hy).2
      omega
  · rw [List.perm_iff_count]
    intro a
    rw [count_big_endian_declared]
    by_cases hmem : a ∈ b.members
    · rw [if_pos (hidx a hmem)]
    · have h0 : b.members.count a = 0 := List.count_eq_zero.mpr hmem
      rw [h0]
      split <;> rfl
  · rw [big_endian_declared_eq_reverse, List.pairwise_flatMap]
    constructor
    · intro i _
      apply List.pairwise_of_forall_mem_list
      intro x hx y hy
      have hxi : x.index = i := by
        simpa using (List.mem_filter.mp hx).2
      have hyi : y.index = i := by
        simpa using (List.mem_filter.mp hy).2
      omega
    · rw [List.pairwise_reverse]
      refine (List.pairwise_lt_range _).imp ?_
      intro i j hij x hx y hy
      have hxj : x.index = j := by
        simpa using (List.mem_filter.mp hx).2
      have hyi : y.index = i := by
        simpa using (List.mem_filter.mp hy).2
      omega

/-- The demonstration bitfield for C8: backing `u8`, members of widths
3 and 2 at indices 0 and 1 (3 padding bits). -/
def demoBitfield : BitfieldDefinition :=
  ⟨"Flags", .U8, [⟨"a", .Unsigned 3, 0, none⟩, ⟨"b", .Signed 2, 1, none⟩], none⟩

/-- Witness for the amended C8 at the demonstration bitfield. -/
theorem C8_witness :
    (padding_member demoBitfield).size.bits =
        demoBitfield.backing_type.c_size * 8 - totalBits demoBitfield.members ∧
      totalBits demoBitfield.members + (padding_member demoBitfield).size.bits =
        demoBitfield.backing_type.c_size * 8 ∧
      little_endian_order demoBitfield =
        little_endian_declared demoBitfield ++ [padding_member demoBitfield] ∧
      big_endian_order demoBitfield =
        padding_member demoBitfield :: big_endian_declared demoBitfield ∧
      (little_endian_declared demoBitfield).Perm demoBitfield.members ∧
      (little_endian_declared demoBitfield).Pairwise (fun x y => x.index ≤ y.index) ∧
      (big_endian_declared demoBitfield).Perm demoBitfield.members ∧
      (big_endian_declared demoBitfield).Pairwise (fun x y => y.index ≤ x.index) :=
  C8_bitfield_orderings demoBitfield rfl (by decide) (by decide)

-- ## Claim C9: enum backing-size sentinel (`output_enum`, `src/header.rs`)

/-- The member loop's update of `needs_backing_value`: once a member's
literal requires a width equal to the backing size, the flag drops to
`false` and stays there. -/
def needs_backing_value_loop (backing_size : Nat) : List EnumMember → Bool → Bool
  | [], needs => needs
  | member :: rest, needs =>
    needs_backing_value_loop backing_size rest
      (if needs ∧ member.value.requires_size = backing_size then false else needs)

/-- `needs_backing_value` after the member loop: starts as
`!allows_enum_backing_type`. -/
def needs_backing_value (c_standard : CStandard) (enum_definition : EnumDefinition) : Bool :=
  needs_backing_value_loop enum_definition.backing_type.c_size enum_definition.members
    (!c_standard.allows_enum_backing_type)

/-- The sentinel literal table
(`0 => "0", 1 => "0xFF", 2 => "0xFFFF", 4 => "0xFFFFFFFF",
8 => "0xFFFFFFFFFFFFFFFF", _ => unreachable!`); the unreachable arm is
modelled as `none`. -/
def sentinel_hex : Nat → Option Nat
  | 0 => some 0
  | 1 => some 0xFF
  | 2 => some 0xFFFF
  | 4 => some 0xFFFFFFFF
  | 8 => some 0xFFFFFFFFFFFFFFFF
  | _ => none

/-- The `_SIZE_RESERVE_VALUE` enumerator emitted by `output_enum`: exactly
one extra sentinel when `needs_backing_value` survives the member loop,
none otherwise. -/
def emitted_sentinel (c_standard : CStandard) (enum_definition : EnumDefinition) : Option Nat :=
  if needs_backing_value c_standard enum_definition then
    sentinel_hex enum_definition.backing_type.c_size
  else none

theorem needs_backing_value_loop_eq (backing_size : Nat) :
    ∀ (l : List EnumMember) (needs : Bool),
      needs_backing_value_loop backing_size l needs =
        (needs && l.all (fun member => !decide (member.value.requires_size = backing_size))) := by
  intro l
  induction l with
  | nil => intro needs; simp [needs_backing_value_loop]
  | cons member rest ih =>
    intro needs
    rw [needs_backing_value_loop, ih]
    cases needs with
    | false => simp
    | true =>
      by_cases hreq : member.value.requires_size = backing_size
      · simp [hreq]
      · simp [hreq]

/-- **C9** (confirmed).  When the standard does not allow declaring an enum
backing type and no member's literal requires (per the leading-zero-byte
classification) a byte width equal to the backing type's byte size, exactly
one sentinel enumerator is emitted, with value `2^(8*backing_size) - 1`;
when the standard allows a backing type, or some member already requires
the full width, no sentinel is emitted. -/
theorem C9_enum_sentinel (c_standard : CStandard) (enum_definition : EnumDefinition)
    (hsz : enum_definition.backing_type.c_size = 1 ∨ enum_definition.backing_type.c_size = 2 ∨
      enum_definition.backing_type.c_size = 4 ∨ enum_definition.backing_type.c_size = 8) :
    ((c_standard.allows_enum_backing_type = false ∧
        ∀ m ∈ enum_definition.members,
          m.value.requires_size ≠ enum_definition.backing_type.c_size) →
      emitted_sentinel c_standard enum_definition =
        some (2 ^ (8 * enum_definition.backing_type.c_size) - 1)) ∧
      ((c_standard.allows_enum_backing_type = true ∨
          ∃ m ∈ enum_definition.members,
            m.value.requires_size = enum_definition.backing_type.c_size) →
        emitted_sentinel c_standard enum_definition = none) := by
  constructor
  · rintro ⟨hallow, hnone⟩
    have hneeds : needs_backing_value c_standard enum_definition = true := by
      rw [needs_backing_value, needs_backing_value_loop_eq, hallow]
      simp only [Bool.not_false, Bool.true_and, List.all_eq_true]
      intro m hm
      simp [hnone m hm]
    rw [emitted_sentinel, if_pos hneeds]
    rcases hsz with h | h | h | h <;> rw [h] <;> norm_num [sentinel_hex]
  · intro hsome
    have hneeds : needs_backing_value c_standard enum_definition = false := by
      rw [needs_backing_value, needs_backing_value_loop_eq]
      rcases hsome with hallow | ⟨m, hm, hreq⟩
      · simp [hallow]
      · simp only [Bool.and_eq_false_iff]
        right
        rw [List.all_eq_false]
        exact ⟨m, hm, by simp [hreq]⟩
    rw [emitted_sentinel, if_neg (by simp [hneeds])]

/-- The demonstration enum for C9: backing `u16`, a single member of value
1 (requiring only 1 byte), rendered under C89. -/
def demoEnum : EnumDefinition :=
  ⟨"Mode", .U16, [⟨"A", .PositiveInteger 1, none⟩], none⟩

/-- Witness for C9: under C89 (no enum backing types) the demonstration
enum gets the sentinel `0xFFFF = 2^16 - 1`. -/
theorem C9_witness :
    emitted_sentinel .C89 demoEnum = some (2 ^ (8 * demoEnum.backing_type.c_size) - 1) :=
  (C9_enum_sentinel .C89 demoEnum (by decide)).1 ⟨rfl, by decide⟩

-- ## Message descriptor generator (`output_source`, `src/source.rs`)

/-- The index a member is listed under in the descriptor pass
(`FieldIndex::Numeric(value) => value, FieldIndex::Verifier => 0`). -/
def listed_index (member : StructMember) : Nat :=
  match member.index with
  | .Numeric value => value
  | .Verifier => 0

/-- The highest declared index scan (`if index > highest_index { ... }`,
starting from 0; a verifier member counts as index 0). -/
def highest_index (sd : StructDefinition) : Nat :=
  sd.members.foldl
    (fun highest member =>
      if highest < listed_index member then listed_index member else highest) 0

/-- `member_count = highest_index + 1`. -/
def member_count (sd : StructDefinition) : Nat :=
  highest_index sd + 1

/-- `CStructMember::index_empty` (`src/c_utilities.rs`): the explicit empty
slot member, legal only for indices 0–31. -/
def index_empty (index : Nat) : Except CompilerError StructMember :=
  if index < 32 then
    .ok (.mk "(empty)" .Empty (.Numeric index) .NoLink none)
  else .error CompilerError.LogicError

/-- One slot of the descriptor pass: start from the empty member for index
`i`, then overwrite it with every declared member listed at `i` (the last
declared match wins, as in the Rust loop). -/
def slot_for (sd : StructDefinition) (i : Nat) : Except CompilerError StructMember :=
  match index_empty i with
  | .error e => .error e
  | .ok empty =>
    .ok (sd.members.foldl
      (fun member listed_member =>
        if listed_index listed_member = i then listed_member else member) empty)

/-- The loop `for i in 0..member_count { ... index_sorted_members.push(member) }`. -/
def slots_loop (sd : StructDefinition) : List Nat → Except CompilerError (List StructMember)
  | [] => .ok []
  | i :: rest =>
    match slot_for sd i with
    | .error e => .error e
    | .ok member =>
      match slots_loop sd rest with
      | .error e => .error e
      | .ok members => .ok (member :: members)

/-- The dense slot array `index_sorted_members`. -/
def index_sorted_members (sd : StructDefinition) : Except CompilerError (List StructMember) :=
  slots_loop sd (List.range (member_count sd))

/-- The per-slot emitted offset expression: `"0"` for an empty slot,
`offsetof(<struct>_t, <member>)` otherwise. -/
def offset_string (struct_name : String) (member : StructMember) : String :=
  match member.data_type with
  | .Empty => "0"
  | _ => "offsetof(" ++ struct_name ++ "_t, " ++ pascal_to_snake_case member.identifier ++ ")"

/-- The `Display` rendering of an `ArraySize` (supplied by the external
`rune_parser` crate): a direct integer renders as the number, a define
reference as its name. -/
def ArraySize.display : ArraySize → String
  | .Integer v => toString v
  | .UserDefinition definition => definition.name

/-- `CStructMember::c_size_definition` (`src/c_utilities.rs`): the emitted
size expression of a slot. -/
def c_size_definition (member : StructMember) (c_standard : CStandard) :
    Except CompilerError String :=
  match member.data_type with
  | .Primitive primitive =>
    match primitive.to_c_type c_standard with
    | .error e => .error e
    | .ok t => .ok ("sizeof(" ++ t ++ ")")
  | .UserDefined type_name => .ok ("sizeof(" ++ pascal_to_snake_case type_name ++ "_t)")
  | .Array array_type array_size =>
    match
      ((match array_type with
        | .Primitive primitive =>
          match primitive.to_c_type c_standard with
          | .error e => .error e
          | .ok t => .ok ("sizeof(" ++ t ++ ")")
        | .UserDefined name =>
          .ok ("sizeof(" ++ pascal_to_snake_case name ++ "_t)")) :
          Except CompilerError String) with
    | .error e => .error e
    | .ok type_string => .ok ("(" ++ type_string ++ " * " ++ array_size.display ++ ")")
  | .Empty => .ok "0"

-- ## Claim C4: density and emptiness of the descriptor slot array

/-- The pure value of a slot (total function; `slot_for` returns it whenever
the index is legal). -/
def slot_value (sd : StructDefinition) (i : Nat) : StructMember :=
  sd.members.foldl
    (fun member listed_member =>
      if listed_index listed_member = i then listed_member else member)
    (.mk "(empty)" .Empty (.Numeric i) .NoLink none)

theorem slot_for_ok (sd : StructDefinition) (i : Nat) (h : i < 32) :
    slot_for sd i = .ok (slot_value sd i) := by
  rw [slot_for, index_empty, if_pos h]
  rfl

theorem slots_loop_ok (sd : StructDefinition) :
    ∀ idxs : List Nat, (∀ i ∈ idxs, i < 32) →
      slots_loop sd idxs = .ok (idxs.map (slot_value sd)) := by
  intro idxs
  induction idxs with
  | nil => intro _; rfl
  | cons i rest ih =>
    intro h
    rw [slots_loop, slot_for_ok sd i (h i (List.mem_cons_self i rest)),
      ih (fun j hj => h j (List.mem_cons_of_mem i hj)), List.map_cons]

theorem foldl_no_match (i : Nat) (e : StructMember) :
    ∀ members : List StructMember, (∀ m ∈ members, listed_index m ≠ i) →
      members.foldl
        (fun member listed_member =>
          if listed_index listed_member = i then listed_member else member) e = e := by
  intro members
  induction members generalizing e with
  | nil => intro _; rfl
  | cons m rest ih =>
    intro h
    rw [List.foldl_cons, if_neg (h m (List.mem_cons_self m rest))]
    exact ih e (fun x hx => h x (List.mem_cons_of_mem m hx))

/-- **C4** (confirmed).  For every struct the descriptor pass renders (its
highest listed index below 32, the legal range), the emitted `field_info`
slot array has exactly one slot for each index from 0 to the highest
declared index inclusive, and every index at which no member is listed is
an explicit empty slot whose emitted size expression is `"0"` and whose
emitted offset is `"0"`. -/
theorem C4_descriptor_dense_slots (sd : StructDefinition) (c_standard : CStandard)
    (h : highest_index sd < 32) :
    ∃ slots, index_sorted_members sd = .ok slots ∧
      slots.length = highest_index sd + 1 ∧
      ∀ (i : Nat) (hi : i < slots.length), (∀ m ∈ sd.members, listed_index m ≠ i) →
        offset_string (pascal_to_snake_case sd.name) (slots.get ⟨i, hi⟩) = "0" ∧
        c_size_definition (slots.get ⟨i, hi⟩) c_standard = .ok "0" := by
  have hall : ∀ i ∈ List.range (member_count sd), i < 32 := by
    intro i hi
    have := List.mem_range.mp hi
    unfold member_count at this
    omega
  refine ⟨(List.range (member_count sd)).map (slot_value sd),
    slots_loop_ok sd _ hall, by simp [member_count], ?_⟩
  intro i hi hnone
  have hlen : i < (List.range (member_count sd)).length := by simpa using hi
  have hget : ((List.range (member_count sd)).map (slot_value sd)).get ⟨i, hi⟩ =
      slot_value sd i := by
    simp
  rw [hget, slot_value, foldl_no_match i _ sd.members hnone]
  exact ⟨rfl, rfl⟩

/-- Witness for C4 at a struct with members listed at indices 0 and 2
(index 1 is an explicit empty slot). -/
theorem C4_witness :
    ∃ slots,
      index_sorted_members
        (.mk "Demo"
          [.mk "x" (.Primitive .U8) (.Numeric 0) .NoLink none,
           .mk "y" (.Primitive .U16) (.Numeric 2) .NoLink none] none) = .ok slots ∧
      slots.length =
        highest_index
          (.mk "Demo"
            [.mk "x" (.Primitive .U8) (.Numeric 0) .NoLink none,
             .mk "y" (.Primitive .U16) (.Numeric 2) .NoLink none] none) + 1 ∧
      ∀ (i : Nat) (hi : i < slots.length),
        (∀ m ∈ (StructDefinition.mk "Demo"
          [.mk "x" (.Primitive .U8) (.Numeric 0) .NoLink none,
           .mk "y" (.Primitive .U16) (.Numeric 2) .NoLink none] none).members,
          listed_index m ≠ i) →
        offset_string
          (pascal_to_snake_case
            (StructDefinition.mk "Demo"
              [.mk "x" (.Primitive .U8) (.Numeric 0) .NoLink none,
               .mk "y" (.Primitive .U16) (.Numeric 2) .NoLink none] none).name)
          (slots.get ⟨i, hi⟩) = "0" ∧
        c_size_definition (slots.get ⟨i, hi⟩) .C99 = .ok "0" :=
  C4_descriptor_dense_slots
    (.mk "Demo"
      [.mk "x" (.Primitive .U8) (.Numeric 0) .NoLink none,
       .mk "y" (.Primitive .U16) (.Numeric 2) .NoLink none] none) .C99 (by decide)

end RuneC
